import Mathlib

/-!
gpstelemetry: GPS telemetry rows from GoPro metadata payloads

A shallow embedding of `src/gpstelemetry.c` (the function `main`) and the
properties of it that the specification states.

Modelling conventions.

* `double` values (`file_start`, `start`, `finish`, `step`, `now`,
  `gpsu.milliseconds`, the scaled samples) are rationals: exact arithmetic,
  no rounding, no NaN or infinity.
* `time_t` and the `int` fields of `struct tm` are unbounded integers; the
  values the program computes from a sixteen character field stay far inside
  the 64 bit range.
* `uint32_t` quantities read from the stream are naturals.
* The GPMF/MP4 library and the C library are outside the repository.  What they
  return is part of the input: the structures `Record`, `Payload` and `File`
  hold, for each call the program makes, the value that call returns.
  `timegm`, `gmtime` and `strftime` are modelled by the proleptic Gregorian
  calendar.
* The locals `fix`, `precision` and `gpsu` are declared without initialiser in
  the body of the payload loop (lines 98-104).  Their value at the start of
  each payload is indeterminate in C; it is an input of the model (`Payload.indet`).
* The run is observed through a list of events: the lines written to standard
  output and every evaluation of the division on line 133.
-/

namespace GpsTelemetry

/-! ## Constants of the GPMF library headers -/

/-- GPMF_OK of `GPMF_parser.h` (the header is outside the repository). -/
def GPMF_OK : Nat := 0

/-- GPMF_ERROR_UNKNOWN_TYPE of `GPMF_parser.h` (the header is outside the
repository); only its being different from `GPMF_OK` is used. -/
def GPMF_ERROR_UNKNOWN_TYPE : Nat := 9

/-- STR2FOURCC of `GPMF_parser.h`: the four characters of a key packed into a
32 bit word, first character in the low byte. -/
def STR2FOURCC (s : String) : Nat :=
  let c := fun i => (s.toList.getD i (Char.ofNat 0)).toNat
  (c 0 + c 1 * 2 ^ 8 + c 2 * 2 ^ 16 + c 3 * 2 ^ 24) % 2 ^ 32

/-! ## Calendar time (`struct tm`, `timegm`, `gmtime`, `strftime`) -/

/-- The fields of `struct tm` that the program sets or prints. -/
structure Tm where
  tm_sec : Int
  tm_min : Int
  tm_hour : Int
  tm_mday : Int
  tm_mon : Int
  tm_year : Int
deriving DecidableEq, Repr

/-- Gregorian leap year. -/
def isleap (y : Int) : Bool := y % 4 == 0 && (y % 100 != 0 || y % 400 == 0)

/-- Days of the year before the first of month `m` (0 = January). -/
def mon_yday (leap : Bool) (m : Int) : Int :=
  let l : Int := if leap then 1 else 0
  if m ≤ 0 then 0 else if m = 1 then 31 else if m = 2 then 59 + l
  else if m = 3 then 90 + l else if m = 4 then 120 + l else if m = 5 then 151 + l
  else if m = 6 then 181 + l else if m = 7 then 212 + l else if m = 8 then 243 + l
  else if m = 9 then 273 + l else if m = 10 then 304 + l else 334 + l

/-- Days from 1970-01-01 to the first of January of year `y` (the POSIX
"seconds since the Epoch" formula, in days). -/
def daysBeforeYear (y : Int) : Int :=
  365 * (y - 1970) + (y - 1969) / 4 - (y - 1901) / 100 + (y - 1601) / 400

/-- C library `timegm`: seconds since the Epoch of a broken-down UTC time.  The
month is brought into 0..11 by carrying into the year; day, hour, minute and
second enter linearly, so out-of-range values are carried over as well. -/
def timegm (tm : Tm) : Int :=
  let year := tm.tm_year + 1900 + tm.tm_mon / 12
  let mon := tm.tm_mon % 12
  let days := daysBeforeYear year + mon_yday (isleap year) mon + (tm.tm_mday - 1)
  days * 86400 + tm.tm_hour * 3600 + tm.tm_min * 60 + tm.tm_sec

/-- Lengths of the months of a year that starts on the first of March. -/
def days_in_month : List Int := [31, 30, 31, 30, 31, 31, 30, 31, 30, 31, 31, 29]

/-- Walks the month table: the month index and the day within the month. -/
def monthLoop : List Int → Int → Int → Int × Int
  | [], months, remdays => (months, remdays)
  | dim :: rest, months, remdays =>
    if dim ≤ remdays then monthLoop rest (months + 1) (remdays - dim) else (months, remdays)

/-- Seconds since the Epoch of 2000-03-01T00:00:00Z. -/
def LEAPOCH : Int := 946684800 + 86400 * (31 + 29)

/-- Splits a day count relative to 2000-03-01 into 400 year cycles, centuries,
4 year cycles, years and the day of the (March based) year. -/
def yearCycles (days : Int) : Int × Int × Int × Int × Int :=
  let qc_cycles := days / 146097
  let remdays := days % 146097
  let c_cycles := if remdays / 36524 = 4 then 3 else remdays / 36524
  let remdays := remdays - c_cycles * 36524
  let q_cycles := if remdays / 1461 = 25 then 24 else remdays / 1461
  let remdays := remdays - q_cycles * 1461
  let remyears := if remdays / 365 = 4 then 3 else remdays / 365
  let remdays := remdays - remyears * 365
  (qc_cycles, c_cycles, q_cycles, remyears, remdays)

/-- C library `gmtime`: the broken-down UTC time of a count of seconds since
the Epoch. -/
def gmtime (t : Int) : Tm :=
  let secs := t - LEAPOCH
  let days := secs / 86400
  let remsecs := secs % 86400
  let cy := yearCycles days
  let years := cy.2.2.2.1 + 4 * cy.2.2.1 + 100 * cy.2.1 + 400 * cy.1
  let mr := monthLoop days_in_month 0 cy.2.2.2.2
  let months := if mr.1 ≥ 10 then mr.1 - 12 else mr.1
  let years := if mr.1 ≥ 10 then years + 1 else years
  { tm_year := years + 100, tm_mon := months + 2, tm_mday := mr.2 + 1,
    tm_hour := remsecs / 3600, tm_min := remsecs / 60 % 60, tm_sec := remsecs % 60 }

/-- Number of days of month `m` (0 = January). -/
def mdays (leap : Bool) (m : Int) : Int :=
  if m = 1 then (if leap then 29 else 28)
  else if m = 3 ∨ m = 5 ∨ m = 8 ∨ m = 10 then 30 else 31

/-- First day of month `k` of a March based year (0 = March). -/
def monthStart (k : Int) : Int :=
  if k = 0 then 0 else if k = 1 then 31 else if k = 2 then 61 else if k = 3 then 92
  else if k = 4 then 122 else if k = 5 then 153 else if k = 6 then 184 else if k = 7 then 214
  else if k = 8 then 245 else if k = 9 then 275 else if k = 10 then 306 else 337

/-- Length of month `k` of a March based year, February taken as 29 days. -/
def monthLen (k : Int) : Int :=
  if k = 1 ∨ k = 3 ∨ k = 6 ∨ k = 8 then 30 else if k = 11 then 29 else 31

/-- Days from 2000-03-01 to the first of March of the year 2000 + `Y`. -/
def marchDays (Y : Int) : Int := 365 * Y + Y / 4 - Y / 100 + Y / 400

/-! ## Text formatting (`printf`, `strftime`) -/

/-- Left padding with the character zero up to `width` characters. -/
def zeroPad (width : Nat) (ds : List Char) : List Char :=
  List.replicate (width - ds.length) '0' ++ ds

/-- The conversion `%0<width>d` of `printf` (`width` = 0 gives plain `%d`): the
sign counts towards the width and the zeros follow it. -/
def fmtInt (width : Nat) (v : Int) : List Char :=
  if v < 0 then '-' :: zeroPad (width - 1) (Nat.toDigits 10 v.natAbs)
  else zeroPad width (Nat.toDigits 10 v.natAbs)

/-- The call `strftime(ftimestr, sizeof(ftimestr), "%Y-%m-%dT%H:%M:%S", tm)` of
line 165. -/
def strftime (tm : Tm) : List Char :=
  fmtInt 0 (tm.tm_year + 1900) ++ ['-'] ++ fmtInt 2 (tm.tm_mon + 1) ++ ['-'] ++
    fmtInt 2 tm.tm_mday ++ ['T'] ++ fmtInt 2 tm.tm_hour ++ [':'] ++ fmtInt 2 tm.tm_min ++
    [':'] ++ fmtInt 2 tm.tm_sec

/-- The conversion `(int)x` of a double: truncation towards zero. -/
def toInt (x : ℚ) : Int := Int.tdiv x.num x.den

/-! ## Program state -/

/-- The anonymous struct `gpsu` (lines 100-104). -/
structure Gpsu where
  time : Int
  milliseconds : ℚ
deriving DecidableEq, Repr

/-- The locals `fix`, `precision` and `gpsu` of the payload loop body. -/
structure Locals where
  fix : Nat
  precision : Nat
  gpsu : Gpsu
deriving DecidableEq, Repr

/-- One data row: the arguments of the `printf` calls of lines 163-171, the
date column as the text printed by line 166. -/
structure Row where
  cts : ℚ
  date : String
  data : List ℚ
  fix : Nat
  precision : Nat
deriving DecidableEq, Repr

/-- What a run does that the properties speak of: the header line and the data
rows written to standard output, and each evaluation of the division of line
133, recorded with its divisor `samples`. -/
inductive Event where
  | header (text : String)
  | row (r : Row)
  | stepdiv (samples : Nat)
deriving DecidableEq, Repr

/-- The data rows among the events, in order. -/
def rowsOf : List Event → List Row
  | [] => []
  | Event.row r :: es => r :: rowsOf es
  | _ :: es => rowsOf es

/-- The divisors of the divisions among the events, in order. -/
def divisorsOf : List Event → List Nat
  | [] => []
  | Event.stepdiv n :: es => n :: divisorsOf es
  | _ :: es => divisorsOf es

/-! ## Input: what the library calls return -/

/-- One keyed record of a payload, as the GPMF calls report it. -/
structure Record where
  /-- GPMF_Key -/
  key : Nat
  /-- GPMF_Repeat -/
  samples : Nat
  /-- GPMF_ElementsInStruct -/
  elements : Nat
  /-- GPMF_StructSize -/
  structsize : Nat
  /-- whether `malloc(buffersize)` returned a buffer -/
  malloc_ok : Bool
  /-- the value returned by the decode call made for the record:
  GPMF_FormattedData for GPSU, GPSF, GPSP and GPMF_ScaledData for GPS5 -/
  decode_res : Nat
  /-- the decoded buffer read as `char` (each value as promoted to `int`) -/
  chars : List Int
  /-- the decoded buffer read as `double` -/
  doubles : List ℚ
  /-- the decoded buffer read through `uint32_t *` -/
  u32 : Nat
  /-- the decoded buffer read through `uint16_t *` -/
  u16 : Nat
deriving DecidableEq, Repr

/-- One payload of a file. -/
structure Payload where
  /-- whether GetPayload returned a buffer -/
  payload_ok : Bool
  /-- the value returned by GetPayloadTime -/
  time_ret : Nat
  /-- the start time stored by GetPayloadTime -/
  start : ℚ
  /-- the finish time stored by GetPayloadTime -/
  finish : ℚ
  /-- the value returned by GPMF_Init -/
  init_ret : Nat
  /-- the indeterminate values of `fix`, `precision`, `gpsu` at block entry -/
  indet : Locals
  /-- the record the stream stands at after GPMF_Init -/
  first : Record
  /-- the records GPMF_Next steps to, until it returns a value other than GPMF_OK -/
  rest : List Record
deriving DecidableEq, Repr

/-- One input file. -/
structure File where
  /-- the value returned by OpenMP4Source -/
  mp4handle : Nat
  /-- the value returned by GetDuration -/
  metadataduration : ℚ
  /-- the payloads with index below GetNumberPayloads -/
  payloads : List Payload
deriving DecidableEq, Repr

/-! ## The program -/

/-- Lines 29-39. -/
def column_names : List String :=
  ["cts", "date", "GPS (Lat.) [deg]", "GPS (Long.) [deg]", "GPS (Alt.) [m]",
   "GPS (2D speed) [m/s]", "GPS (3D speed) [m/s]", "fix", "precision"]

/-- Lines 72-73: the loop printing the column names, from index `i` on. -/
def printColumns : Nat → List String → String
  | _, [] => ""
  | i, name :: rest =>
    (if i ≠ 0 then "," else "") ++ "\"" ++ name ++ "\"" ++ printColumns (i + 1) rest

/-- The character value of the zero digit. -/
def zeroChar : Int := 48

/-- Lines 142-156: the sixteen character field converted to `gpsu`. -/
def parseGpsu (gpsu_string : List Int) : Gpsu :=
  let c := fun i => gpsu_string.getD i 0 - zeroChar
  let tm : Tm :=
    { tm_year := 10 * c 0 + c 1 + 100,
      tm_mon := 10 * c 2 + c 3 - 1,
      tm_mday := 10 * c 4 + c 5,
      tm_hour := 10 * c 6 + c 7,
      tm_min := 10 * c 8 + c 9,
      tm_sec := 10 * c 10 + c 11 }
  { time := timegm tm,
    milliseconds := 100 * ((c 13 : Int) : ℚ) + 10 * ((c 14 : Int) : ℚ) + ((c 15 : Int) : ℚ) }

/-- Lines 164-166: the date column of a row. -/
def dateColumn (g : Gpsu) : String :=
  String.mk (strftime (gmtime g.time) ++ ['.'] ++ fmtInt 3 (toInt g.milliseconds) ++ ['Z'])

/-- Lines 177-182: the time anchor moved on by one step. -/
def advance (g : Gpsu) (step : ℚ) : Gpsu :=
  let ms := g.milliseconds + step * 1000
  if ms ≥ 1000 then { time := g.time + 1, milliseconds := ms - 1000 }
  else { time := g.time, milliseconds := ms }

/-- The variables the sample loop of lines 138-192 changes. -/
structure LoopState where
  /-- index of `ptr` into the buffer of doubles -/
  ptr : Nat
  now : ℚ
  loc : Locals
deriving DecidableEq, Repr

/-- Lines 169-170: the `elements` doubles read through `ptr`. -/
def readData (doubles : List ℚ) (ptr elements : Nat) : List ℚ :=
  (List.range elements).map (fun j => doubles.getD (ptr + j) 0)

/-- Lines 140-191: the body of the sample loop. -/
def sampleBody (file_start step : ℚ) (r : Record) (s : LoopState) : LoopState × List Event :=
  if STR2FOURCC "GPSU" == r.key then
    ({ s with loc := { s.loc with gpsu := parseGpsu r.chars } }, [])
  else if STR2FOURCC "GPS5" == r.key then
    let row : Row :=
      { cts := (file_start + s.now) * 1000,
        date := dateColumn s.loc.gpsu,
        data := readData r.doubles s.ptr r.elements,
        fix := s.loc.fix,
        precision := s.loc.precision }
    ({ ptr := s.ptr + r.elements, now := s.now + step,
       loc := { s.loc with gpsu := advance s.loc.gpsu step } }, [Event.row row])
  else if STR2FOURCC "GPSF" == r.key then
    ({ s with loc := { s.loc with fix := r.u32 } }, [])
  else if STR2FOURCC "GPSP" == r.key then
    ({ s with loc := { s.loc with precision := r.u16 } }, [])
  else (s, [])

/-- Line 138: the sample loop, `n` iterations. -/
def sampleLoop (file_start step : ℚ) (r : Record) : Nat → LoopState → LoopState × List Event
  | 0, s => (s, [])
  | n + 1, s =>
    let r1 := sampleBody file_start step r s
    let r2 := sampleLoop file_start step r n r1.1
    (r2.1, r1.2 ++ r2.2)

/-- Lines 124-128: the result of the decode call chosen by the key. -/
def decodeRes (r : Record) : Nat :=
  if (STR2FOURCC "GPSU" == r.key) ||
      ((STR2FOURCC "GPSF" == r.key) || (STR2FOURCC "GPSP" == r.key)) then r.decode_res
  else if STR2FOURCC "GPS5" == r.key then r.decode_res
  else GPMF_ERROR_UNKNOWN_TYPE

/-- The variables the record loop of lines 107-197 changes. -/
structure PayloadState where
  loc : Locals
  file_finish : ℚ
deriving DecidableEq, Repr

/-- Lines 109-195: the body of the record loop for one record. -/
def processRecord (file_start start finish : ℚ) (st : PayloadState) (r : Record) :
    PayloadState × List Event :=
  if r.samples = 0 then (st, [])
  else if r.structsize = 0 then (st, [])
  else if !r.malloc_ok then (st, [])
  else if GPMF_OK = decodeRes r then
    let step := (finish - start) / (r.samples : ℚ)
    let res := sampleLoop file_start step r r.samples { ptr := 0, now := start, loc := st.loc }
    ({ loc := res.1.loc, file_finish := finish }, Event.stepdiv r.samples :: res.2)
  else (st, [])

/-- Lines 107-197: the record loop over the records GPMF_Next steps through. -/
def recordLoop (file_start start finish : ℚ) : PayloadState → List Record →
    PayloadState × List Event
  | st, [] => (st, [])
  | st, r :: rs =>
    let r1 := processRecord file_start start finish st r
    let r2 := recordLoop file_start start finish r1.1 rs
    (r2.1, r1.2 ++ r2.2)

/-- Lines 98-199: one payload whose buffer, time window and stream were
obtained; the locals start from the payload's indeterminate values. -/
def processPayload (file_start : ℚ) (file_finish : ℚ) (p : Payload) : PayloadState × List Event :=
  recordLoop file_start p.start p.finish { loc := p.indet, file_finish := file_finish }
    (p.first :: p.rest)

/-- The result of the payload loop: `ret`, `file_finish` and the events. -/
structure FileResult where
  ret : Nat
  file_finish : ℚ
  events : List Event
deriving DecidableEq, Repr

/-- Lines 83-200: the payload loop. -/
def payloadLoop (file_start : ℚ) : List Payload → Nat → ℚ → FileResult
  | [], ret, file_finish => { ret := ret, file_finish := file_finish, events := [] }
  | p :: ps, ret, file_finish =>
    if !p.payload_ok then { ret := ret, file_finish := file_finish, events := [] }
    else if p.time_ret ≠ GPMF_OK then
      { ret := p.time_ret, file_finish := file_finish, events := [] }
    else if p.init_ret ≠ GPMF_OK then
      { ret := p.init_ret, file_finish := file_finish, events := [] }
    else
      let r1 := processPayload file_start file_finish p
      let r2 := payloadLoop file_start ps p.init_ret r1.1.file_finish
      { r2 with events := r1.2 ++ r2.events }

/-- The result of a run: the exit status and the events. -/
structure RunResult where
  exit : Int
  events : List Event
deriving DecidableEq, Repr

/-- Lines 53-216: the file loop; `first` tells whether `argc_index` is 1. -/
def fileLoop : List File → Bool → Nat → ℚ → RunResult
  | [], _, ret, _ => { exit := (ret : Int), events := [] }
  | f :: fs, first, ret, file_start =>
    if f.mp4handle = 0 then { exit := -1, events := [] }
    else if f.metadataduration ≤ 0 then { exit := -1, events := [] }
    else
      let hdr : List Event :=
        if first then [Event.header (printColumns 0 column_names)] else []
      let r1 := payloadLoop file_start f.payloads ret 0
      if r1.ret ≠ GPMF_OK then { exit := (r1.ret : Int), events := hdr ++ r1.events }
      else
        let r2 := fileLoop fs false r1.ret (file_start + r1.file_finish)
        { r2 with events := hdr ++ r1.events ++ r2.events }

/-- Lines 41-219: `main`, applied to the files named on the command line. -/
def main (files : List File) : RunResult :=
  if files.length + 1 < 2 then { exit := -1, events := [] }
  else fileLoop files true GPMF_OK 0

/-! ## Definitions used to state the properties -/

/-- The positions of a time-sync field that hold decimal digits. -/
def digitPositions : List Nat := [0, 1, 2, 3, 4, 5, 6, 7, 8, 9, 10, 11, 13, 14, 15]

/-- The number written by the two characters at positions `i` and `i + 1`. -/
def twoDigits (s : List Char) (i : Nat) : Int :=
  10 * (((s.getD i '0').toNat : Int) - 48) + (((s.getD (i + 1) '0').toNat : Int) - 48)

/-- A sixteen character field "YYMMDDhhmmss.mmm" with digits at the digit
positions that denotes a valid UTC calendar date and time. -/
def ValidField (s : List Char) : Prop :=
  s.length = 16 ∧ (∀ i ∈ digitPositions, (s.getD i '0').isDigit = true) ∧
  (1 ≤ twoDigits s 2 ∧ twoDigits s 2 ≤ 12) ∧
  (1 ≤ twoDigits s 4 ∧
    twoDigits s 4 ≤ mdays (isleap (2000 + twoDigits s 0)) (twoDigits s 2 - 1)) ∧
  twoDigits s 6 < 24 ∧ twoDigits s 8 < 60 ∧ twoDigits s 10 < 60

/-- The buffer a field occupies, each character as its `int` value. -/
def charBuffer (s : List Char) : List Int := s.map (fun c => (c.toNat : Int))

/-- The text "20YY-MM-DDThh:mm:ss.mmmZ" made of the characters of a field. -/
def isoText (s : List Char) : String :=
  let c := fun i => s.getD i '0'
  String.mk ['2', '0', c 0, c 1, '-', c 2, c 3, '-', c 4, c 5, 'T', c 6, c 7, ':', c 8, c 9,
    ':', c 10, c 11, '.', c 13, c 14, c 15, 'Z']

/-- The anchor after `i` advances by `step`. -/
def advanceN (step : ℚ) : Nat → Gpsu → Gpsu
  | 0, g => g
  | i + 1, g => advanceN step i (advance g step)

/-- The row a GPS5 record emits for its sample `i`, the loop having started in
state `s`. -/
def gps5Row (file_start step : ℚ) (r : Record) (s : LoopState) (i : Nat) : Row :=
  { cts := (file_start + (s.now + (i : ℚ) * step)) * 1000,
    date := dateColumn (advanceN step i s.loc.gpsu),
    data := readData r.doubles (s.ptr + i * r.elements) r.elements,
    fix := s.loc.fix,
    precision := s.loc.precision }

/-- The record passes the guards of lines 113-130 and its samples are looped over. -/
def Reaches (r : Record) : Prop :=
  r.samples ≠ 0 ∧ r.structsize ≠ 0 ∧ r.malloc_ok = true ∧ decodeRes r = GPMF_OK

instance (r : Record) : Decidable (Reaches r) := by
  unfold Reaches; infer_instance

instance (s : List Char) : Decidable (ValidField s) := by
  unfold ValidField; infer_instance

/-- A record with the given key and sample count that passes all guards. -/
def okRecord (key samples : Nat) : Record :=
  { key := key, samples := samples, elements := 5, structsize := 20, malloc_ok := true,
    decode_res := GPMF_OK, chars := [], doubles := [], u32 := 0, u16 := 0 }

/-- The field of the specification's round trip example. -/
def exampleField : List Char := "210615123045.500".toList

/-- The events of the payload loop of file `f` run at the offset `file_start`. -/
def fileEvents (file_start : ℚ) (f : File) : List Event :=
  (payloadLoop file_start f.payloads GPMF_OK 0).events

/-- The last-finish value recorded for file `f`: `file_finish` after its payload loop. -/
def fileFinish (f : File) : ℚ := (payloadLoop 0 f.payloads GPMF_OK 0).file_finish

/-- The value of `ret` after the payload loop of file `f`. -/
def fileRet (f : File) : Nat := (payloadLoop 0 f.payloads GPMF_OK 0).ret

/-- The file processes without error: it opens, has positive duration and its
payload loop ends with `ret` equal to GPMF_OK. -/
def FileOk (f : File) : Prop :=
  f.mp4handle ≠ 0 ∧ 0 < f.metadataduration ∧ fileRet f = GPMF_OK

/-- The sum F_1 + ... + F_k of the last-finish values of the first `k` files. -/
def offsetBefore (files : List File) (k : Nat) : ℚ := ((files.take k).map fileFinish).sum

/-- A payload with window [`start`, `finish`] holding one GPS5 record of
`samples` samples, all library calls succeeding. -/
def gps5Payload (start finish : ℚ) (samples : Nat) : Payload :=
  { payload_ok := true, time_ret := GPMF_OK, start := start, finish := finish,
    init_ret := GPMF_OK, indet := ⟨0, 0, ⟨0, 0⟩⟩,
    first := okRecord (STR2FOURCC "GPS5") samples, rest := [] }

/-- A file of one payload with window [0, 10] and one GPS5 record of two samples. -/
def tenSecondFile : File :=
  { mp4handle := 1, metadataduration := 10, payloads := [gps5Payload 0 10 2] }

/-- A payload of four records: GPSF with value 3, GPSP with value 100, GPSU with
the example field, GPS5 with two samples; its locals start as fix 7,
precision 9, anchor (0, 0). -/
def fullPayload : Payload :=
  { payload_ok := true, time_ret := GPMF_OK, start := 0, finish := 1, init_ret := GPMF_OK,
    indet := ⟨7, 9, ⟨0, 0⟩⟩,
    first := { okRecord (STR2FOURCC "GPSF") 1 with u32 := 3 },
    rest := [{ okRecord (STR2FOURCC "GPSP") 1 with u16 := 100 },
             { okRecord (STR2FOURCC "GPSU") 1 with chars := charBuffer exampleField },
             okRecord (STR2FOURCC "GPS5") 2] }

/-- A time-sync field with the letter X at digit position 11. -/
def badField : List Char := "21061512304X.500".toList

/-- What of a payload decides the control flow of the payload loop. -/
def payloadSkeleton (p : Payload) : Bool × Nat × Nat := (p.payload_ok, p.time_ret, p.init_ret)

/-- What of a file decides the control flow of the file loop: the handle,
whether the duration is positive, and the skeletons of the payloads.  No
record enters. -/
def fileSkeleton (f : File) : Nat × Bool × List (Bool × Nat × Nat) :=
  (f.mp4handle, decide (f.metadataduration ≤ 0), f.payloads.map payloadSkeleton)

/-- A file of one payload with window [0, 1] holding the records `first :: rest`,
all library calls on the file and the payload succeeding. -/
def onePayloadFile (first : Record) (rest : List Record) : File :=
  { mp4handle := 1, metadataduration := 1,
    payloads := [{ payload_ok := true, time_ret := GPMF_OK, start := 0, finish := 1,
                   init_ret := GPMF_OK, indet := ⟨0, 0, ⟨0, 0⟩⟩, first := first, rest := rest }] }

/-- A GPSU record, decoded without error, whose field is `badField`. -/
def badGpsu : Record := { okRecord (STR2FOURCC "GPSU") 1 with chars := charBuffer badField }

/-- A GPSU record whose decode call returns 1, a value other than GPMF_OK. -/
def failedGpsu : Record := { okRecord (STR2FOURCC "GPSU") 1 with decode_res := 1 }

/-- A record with a key other than GPSU, GPSF, GPSP and GPS5 (ACCL, the
accelerometer stream), with non-zero counts, a buffer, and a decode result that
would be GPMF_OK. -/
def acclRecord : Record := okRecord (STR2FOURCC "ACCL") 3

/-- The header events among the events, in order. -/
def headersOf : List Event → List String
  | [] => []
  | Event.header t :: es => t :: headersOf es
  | _ :: es => headersOf es

/-- The payload holds a record whose samples are looped over: a record with key
GPSU, GPSF, GPSP or GPS5 that passes the guards and decodes. -/
def payloadDecodes (p : Payload) : Bool :=
  (p.first :: p.rest).any (fun r => decide (Reaches r))

/-- The finish time of the last payload of `ps` that holds a decoded record, and
`init` when there is none. -/
def lastDecodedFinish (init : ℚ) (ps : List Payload) : ℚ :=
  match ps.reverse.find? payloadDecodes with
  | some p => p.finish
  | none => init

/-- A payload with window [1, 2] whose only record is `acclRecord`, all library
calls succeeding. -/
def acclPayload : Payload :=
  { payload_ok := true, time_ret := GPMF_OK, start := 1, finish := 2, init_ret := GPMF_OK,
    indet := ⟨0, 0, ⟨0, 0⟩⟩, first := acclRecord, rest := [] }

/-- A file of two payloads: window [0, 1] with one GPS5 record of one sample,
then window [1, 2] with only an ACCL record. -/
def gapFile : File :=
  { mp4handle := 1, metadataduration := 2, payloads := [gps5Payload 0 1 1, acclPayload] }

/-- The header line: the nine column names, each in double quotes, joined by commas. -/
def headerLine : String :=
  "\"cts\",\"date\",\"GPS (Lat.) [deg]\",\"GPS (Long.) [deg]\",\"GPS (Alt.) [m]\",\"GPS (2D speed) [m/s]\",\"GPS (3D speed) [m/s]\",\"fix\",\"precision\""

/-- The payloads the payload loop asks the time window of: those before the
first payload for which GetPayload returns no buffer. -/
def reachedPayloads (ps : List Payload) : List Payload :=
  ps.takeWhile (fun p => p.payload_ok)

/-- The file hits a file error: OpenMP4Source returns no handle, or the duration
is not positive, or GetPayloadTime or GPMF_Init returns a value other than
GPMF_OK for a payload the loop reaches. -/
def FileError (f : File) : Prop :=
  f.mp4handle = 0 ∨ f.metadataduration ≤ 0 ∨
    ∃ p ∈ reachedPayloads f.payloads, p.time_ret ≠ GPMF_OK ∨ p.init_ret ≠ GPMF_OK

/-- The payloads whose records are processed: those before the first payload
that has no buffer or for which GetPayloadTime or GPMF_Init fails. -/
def processedPayloads (ps : List Payload) : List Payload :=
  ps.takeWhile (fun p => p.payload_ok && (p.time_ret == GPMF_OK && p.init_ret == GPMF_OK))

/-- A file of three payloads with one GPS5 record of one sample each, windows
[0,1], [1,2], [2,3]; GetPayloadTime returns 1, not GPMF_OK, for the second. -/
def badTimeFile : File :=
  { mp4handle := 1, metadataduration := 3,
    payloads := [gps5Payload 0 1 1, { gps5Payload 1 2 1 with time_ret := 1 },
                 gps5Payload 2 3 1] }

/-! ## The calendar functions are inverse to each other -/

theorem yearCycles_eq (a c q k doy : Int) (hc : 0 ≤ c ∧ c < 4) (hq : 0 ≤ q ∧ q < 25)
    (hk : 0 ≤ k ∧ k < 4) (h0 : 0 ≤ doy)
    (h1 : doy < 365 ∨ (doy = 365 ∧ k = 3 ∧ (q ≠ 24 ∨ c = 3))) :
    yearCycles (146097 * a + 36524 * c + 1461 * q + 365 * k + doy) = (a, c, q, k, doy) := by
  have e1 : (146097 * a + 36524 * c + 1461 * q + 365 * k + doy) / 146097 = a := by omega
  have e2 : (146097 * a + 36524 * c + 1461 * q + 365 * k + doy) % 146097
      = 36524 * c + 1461 * q + 365 * k + doy := by omega
  have e3 : (if (36524 * c + 1461 * q + 365 * k + doy) / 36524 = 4 then 3
      else (36524 * c + 1461 * q + 365 * k + doy) / 36524) = c := by split <;> omega
  have e4 : 36524 * c + 1461 * q + 365 * k + doy - c * 36524 = 1461 * q + 365 * k + doy := by
    omega
  have e5 : (if (1461 * q + 365 * k + doy) / 1461 = 25 then 24
      else (1461 * q + 365 * k + doy) / 1461) = q := by split <;> omega
  have e6 : 1461 * q + 365 * k + doy - q * 1461 = 365 * k + doy := by omega
  have e7 : (if (365 * k + doy) / 365 = 4 then 3 else (365 * k + doy) / 365) = k := by
    split <;> omega
  have e8 : 365 * k + doy - k * 365 = doy := by omega
  simp only [yearCycles, e1, e2, e3, e4, e5, e6, e7, e8]

theorem monthLoop_pos (dim : Int) (rest : List Int) (m r : Int) (h : dim ≤ r) :
    monthLoop (dim :: rest) m r = monthLoop rest (m + 1) (r - dim) := by
  rw [monthLoop, if_pos h]

theorem monthLoop_neg (dim : Int) (rest : List Int) (m r : Int) (h : r < dim) :
    monthLoop (dim :: rest) m r = (m, r) := by
  rw [monthLoop, if_neg (not_le.mpr h)]

theorem monthLoop_month (k e : Int) (hk : 0 ≤ k ∧ k < 12) (he : 0 ≤ e ∧ e < monthLen k) :
    monthLoop days_in_month 0 (monthStart k + e) = (k, e) := by
  obtain ⟨hk0, hk1⟩ := hk
  obtain ⟨he0, he1⟩ := he
  have hcases : k = 0 ∨ k = 1 ∨ k = 2 ∨ k = 3 ∨ k = 4 ∨ k = 5 ∨ k = 6 ∨ k = 7 ∨ k = 8 ∨
      k = 9 ∨ k = 10 ∨ k = 11 := by omega
  unfold days_in_month
  rcases hcases with rfl | rfl | rfl | rfl | rfl | rfl | rfl | rfl | rfl | rfl | rfl | rfl <;>
    simp only [monthLen, monthStart] at he1 ⊢ <;>
    norm_num at he1 ⊢ <;>
    (repeat (first
      | rw [monthLoop_neg _ _ _ _ (by omega)]
      | rw [monthLoop_pos _ _ _ _ (by omega)])) <;>
    simp only [Prod.mk.injEq] <;> omega

theorem isleap_iff (y : Int) :
    isleap y = true ↔ y % 4 = 0 ∧ (y % 100 ≠ 0 ∨ y % 400 = 0) := by
  simp [isleap]

theorem marchDays_split (Y : Int) :
    marchDays Y =
      146097 * (Y / 400) + 36524 * (Y % 400 / 100) + 1461 * (Y % 100 / 4) + 365 * (Y % 4) := by
  unfold marchDays
  omega

theorem daysBeforeYear_march (y : Int) :
    daysBeforeYear y - 11017 + 59 + (if isleap y then 1 else 0) = marchDays (y - 2000) := by
  unfold daysBeforeYear marchDays
  by_cases hl : isleap y = true
  · have hl2 := (isleap_iff y).mp hl
    rw [if_pos hl]
    omega
  · have hl2 : ¬ (y % 4 = 0 ∧ (y % 100 ≠ 0 ∨ y % 400 = 0)) := fun h => hl ((isleap_iff y).mpr h)
    rw [if_neg hl]
    omega

theorem daysBeforeYear_janfeb (y : Int) :
    daysBeforeYear y - 11017 - 306 = marchDays (y - 2001) := by
  unfold daysBeforeYear marchDays
  omega

theorem mon_yday_march (leap : Bool) (mo : Int) (h : 2 ≤ mo ∧ mo < 12) :
    mon_yday leap mo = 59 + (if leap then 1 else 0) + monthStart (mo - 2) := by
  obtain ⟨h0, h1⟩ := h
  have hcases : mo = 2 ∨ mo = 3 ∨ mo = 4 ∨ mo = 5 ∨ mo = 6 ∨ mo = 7 ∨
      mo = 8 ∨ mo = 9 ∨ mo = 10 ∨ mo = 11 := by omega
  cases leap <;>
    rcases hcases with rfl | rfl | rfl | rfl | rfl | rfl | rfl | rfl | rfl | rfl <;>
    simp only [mon_yday, monthStart] <;> norm_num

theorem mon_yday_janfeb (leap : Bool) (mo : Int) (h : 0 ≤ mo ∧ mo < 2) :
    mon_yday leap mo = monthStart (mo + 10) - 306 := by
  obtain ⟨h0, h1⟩ := h
  have hcases : mo = 0 ∨ mo = 1 := by omega
  rcases hcases with rfl | rfl <;> simp only [mon_yday, monthStart] <;> norm_num

theorem mdays_march (leap : Bool) (mo : Int) (h : 2 ≤ mo ∧ mo < 12) :
    mdays leap mo = monthLen (mo - 2) ∧ monthStart (mo - 2) + monthLen (mo - 2) ≤ 306 := by
  obtain ⟨h0, h1⟩ := h
  have hcases : mo = 2 ∨ mo = 3 ∨ mo = 4 ∨ mo = 5 ∨ mo = 6 ∨ mo = 7 ∨
      mo = 8 ∨ mo = 9 ∨ mo = 10 ∨ mo = 11 := by omega
  rcases hcases with rfl | rfl | rfl | rfl | rfl | rfl | rfl | rfl | rfl | rfl <;>
    simp only [mdays, monthLen, monthStart] <;> norm_num

theorem monthStart_nonneg (k : Int) : 0 ≤ monthStart k := by
  unfold monthStart
  (repeat' split) <;> omega

theorem civil_march (y mo d : Int) (hmon : 0 ≤ mo ∧ mo < 12)
    (hday : 1 ≤ d ∧ d ≤ mdays (isleap y) mo) :
    ∃ Y k : Int, daysBeforeYear y + mon_yday (isleap y) mo + (d - 1) - 11017
          = marchDays Y + (monthStart k + (d - 1)) ∧ (0 ≤ k ∧ k < 12) ∧
        (d - 1 < monthLen k) ∧
        (monthStart k + (d - 1) < 365 ∨
          (monthStart k + (d - 1) = 365 ∧ Y % 4 = 3 ∧ (Y % 100 / 4 ≠ 24 ∨ Y % 400 / 100 = 3))) ∧
        (if k ≥ 10 then Y + 1 else Y) + 100 = y - 1900 ∧
        (if k ≥ 10 then k - 12 else k) + 2 = mo := by
  obtain ⟨hm0, hm1⟩ := hmon
  obtain ⟨hd0, hd1⟩ := hday
  by_cases h2 : 2 ≤ mo
  · have hmd := mdays_march (isleap y) mo ⟨h2, hm1⟩
    refine ⟨y - 2000, mo - 2, ?_, by omega, by omega, by omega, ?_, ?_⟩
    · rw [← daysBeforeYear_march, mon_yday_march _ _ ⟨h2, hm1⟩]; ring
    · rw [if_neg (by omega)]; omega
    · rw [if_neg (by omega)]; omega
  · have hcases : mo = 0 ∨ mo = 1 := by omega
    refine ⟨y - 2001, mo + 10, ?_, by omega, ?_, ?_, ?_, ?_⟩
    · rw [← daysBeforeYear_janfeb, mon_yday_janfeb _ _ ⟨hm0, by omega⟩]; ring
    · rcases hcases with rfl | rfl
      · simp only [mdays, monthLen] at hd1 ⊢; norm_num at hd1 ⊢; omega
      · simp only [mdays, monthLen] at hd1 ⊢; norm_num at hd1 ⊢; split at hd1 <;> omega
    · rcases hcases with rfl | rfl
      · simp only [mdays, monthStart] at hd1 ⊢; norm_num at hd1 ⊢; omega
      · simp only [mdays, monthStart] at hd1 ⊢; norm_num at hd1 ⊢
        by_cases hl : isleap y = true
        · have hl2 := (isleap_iff y).mp hl
          omega
        · rw [if_neg hl] at hd1; omega
    · rw [if_pos (by omega)]; omega
    · rw [if_pos (by omega)]; omega

theorem secs_split (D h mi s : Int) (hh : 0 ≤ h ∧ h < 24) (hm : 0 ≤ mi ∧ mi < 60)
    (hs : 0 ≤ s ∧ s < 60) :
    (D * 86400 + h * 3600 + mi * 60 + s - LEAPOCH) / 86400 = D - 11017 ∧
    (D * 86400 + h * 3600 + mi * 60 + s - LEAPOCH) % 86400 = h * 3600 + mi * 60 + s ∧
    (h * 3600 + mi * 60 + s) / 3600 = h ∧ (h * 3600 + mi * 60 + s) / 60 % 60 = mi ∧
    (h * 3600 + mi * 60 + s) % 60 = s := by
  unfold LEAPOCH
  refine ⟨by omega, by omega, by omega, by omega, by omega⟩

theorem yearCycles_march (Y doy : Int) (h0 : 0 ≤ doy)
    (h1 : doy < 365 ∨ (doy = 365 ∧ Y % 4 = 3 ∧ (Y % 100 / 4 ≠ 24 ∨ Y % 400 / 100 = 3))) :
    yearCycles (marchDays Y + doy) = (Y / 400, Y % 400 / 100, Y % 100 / 4, Y % 4, doy) := by
  rw [marchDays_split]
  exact yearCycles_eq _ _ _ _ _ (by omega) (by omega) (by omega) h0 h1

theorem year_sum (Y : Int) :
    Y % 4 + 4 * (Y % 100 / 4) + 100 * (Y % 400 / 100) + 400 * (Y / 400) = Y := by
  omega

theorem gmtime_timegm (tm : Tm)
    (hmon : 0 ≤ tm.tm_mon ∧ tm.tm_mon < 12)
    (hday : 1 ≤ tm.tm_mday ∧ tm.tm_mday ≤ mdays (isleap (tm.tm_year + 1900)) tm.tm_mon)
    (hh : 0 ≤ tm.tm_hour ∧ tm.tm_hour < 24)
    (hm : 0 ≤ tm.tm_min ∧ tm.tm_min < 60)
    (hs : 0 ≤ tm.tm_sec ∧ tm.tm_sec < 60) :
    gmtime (timegm tm) = tm := by
  obtain ⟨s, mi, h, d, mo, ty⟩ := tm
  simp only at hmon hday hh hm hs
  have hdiv : mo / 12 = 0 := by omega
  have hmod : mo % 12 = mo := by omega
  obtain ⟨Y, k, hsplit, hk, hlen, hfeb, hyear, hmonth⟩ :=
    civil_march (ty + 1900) mo d hmon hday
  obtain ⟨e1, e2, e3, e4, e5⟩ :=
    secs_split (daysBeforeYear (ty + 1900) + mon_yday (isleap (ty + 1900)) mo + (d - 1))
      h mi s hh hm hs
  have hd0 : 0 ≤ d - 1 := by have := hday.1; omega
  have hcy := yearCycles_march Y (monthStart k + (d - 1))
    (add_nonneg (monthStart_nonneg k) hd0) hfeb
  have hml := monthLoop_month k (d - 1) hk ⟨hd0, hlen⟩
  have hty : ty + 1900 - 1900 = ty := by ring
  rw [hty] at hyear
  simp only [gmtime, timegm, hdiv, hmod, add_zero, e1, e2, e3, e4, e5, hsplit, hcy, hml,
    year_sum, hyear, hmonth, sub_add_cancel]

/-! ## Formatting and parsing of the time-sync field -/

theorem toInt_natCast (n : Nat) : toInt (n : ℚ) = (n : Int) := by
  simp [toInt]

theorem fmtInt_natCast (w n : Nat) : fmtInt w (n : Int) = zeroPad w (Nat.toDigits 10 n) := by
  simp [fmtInt]

theorem digits_year : ∀ a < 10, ∀ b < 10, zeroPad 0 (Nat.toDigits 10 (2000 + 10 * a + b)) =
    ['2', '0', Char.ofNat (48 + a), Char.ofNat (48 + b)] := by decide

theorem digits_two : ∀ a < 10, ∀ b < 10, zeroPad 2 (Nat.toDigits 10 (10 * a + b)) =
    [Char.ofNat (48 + a), Char.ofNat (48 + b)] := by decide

set_option maxRecDepth 100000 in
theorem digits_three : ∀ a < 10, ∀ b < 10, ∀ c < 10,
    zeroPad 3 (Nat.toDigits 10 (100 * a + 10 * b + c)) =
    [Char.ofNat (48 + a), Char.ofNat (48 + b), Char.ofNat (48 + c)] := by decide

theorem digit_char (c : Char) (h : c.isDigit = true) :
    ∃ k : Nat, k < 10 ∧ c = Char.ofNat (48 + k) ∧ ((c.toNat : Int) - zeroChar = (k : Int)) := by
  have h1 : 48 ≤ c.toNat ∧ c.toNat ≤ 57 := by
    simp only [Char.isDigit, Bool.and_eq_true, decide_eq_true_eq] at h
    exact ⟨h.1, h.2⟩
  refine ⟨c.toNat - 48, by omega, ?_, ?_⟩
  · have : 48 + (c.toNat - 48) = c.toNat := by omega
    rw [this, Char.ofNat_toNat]
  · unfold zeroChar; omega

theorem length_sixteen (s : List Char) (h : s.length = 16) :
    ∃ c0 c1 c2 c3 c4 c5 c6 c7 c8 c9 c10 c11 c12 c13 c14 c15,
      s = [c0, c1, c2, c3, c4, c5, c6, c7, c8, c9, c10, c11, c12, c13, c14, c15] := by
  rcases s with _ | ⟨c0, _ | ⟨c1, _ | ⟨c2, _ | ⟨c3, _ | ⟨c4, _ | ⟨c5, _ | ⟨c6, _ | ⟨c7,
    _ | ⟨c8, _ | ⟨c9, _ | ⟨c10, _ | ⟨c11, _ | ⟨c12, _ | ⟨c13, _ | ⟨c14, _ | ⟨c15, _ | ⟨c16, t⟩⟩⟩⟩⟩⟩⟩⟩⟩⟩⟩⟩⟩⟩⟩⟩⟩
  all_goals first
    | exact ⟨c0, c1, c2, c3, c4, c5, c6, c7, c8, c9, c10, c11, c12, c13, c14, c15, rfl⟩
    | (simp at h)

theorem parse_format (s : List Char) (h : ValidField s) :
    dateColumn (parseGpsu (charBuffer s)) = isoText s := by
  obtain ⟨hlen, hdig, hmon, hday, hh, hm, hs⟩ := h
  obtain ⟨c0, c1, c2, c3, c4, c5, c6, c7, c8, c9, c10, c11, c12, c13, c14, c15, rfl⟩ :=
    length_sixteen s hlen
  obtain ⟨k0, hk0, rfl, e0⟩ := digit_char c0 (hdig 0 (by decide))
  obtain ⟨k1, hk1, rfl, e1⟩ := digit_char c1 (hdig 1 (by decide))
  obtain ⟨k2, hk2, rfl, e2⟩ := digit_char c2 (hdig 2 (by decide))
  obtain ⟨k3, hk3, rfl, e3⟩ := digit_char c3 (hdig 3 (by decide))
  obtain ⟨k4, hk4, rfl, e4⟩ := digit_char c4 (hdig 4 (by decide))
  obtain ⟨k5, hk5, rfl, e5⟩ := digit_char c5 (hdig 5 (by decide))
  obtain ⟨k6, hk6, rfl, e6⟩ := digit_char c6 (hdig 6 (by decide))
  obtain ⟨k7, hk7, rfl, e7⟩ := digit_char c7 (hdig 7 (by decide))
  obtain ⟨k8, hk8, rfl, e8⟩ := digit_char c8 (hdig 8 (by decide))
  obtain ⟨k9, hk9, rfl, e9⟩ := digit_char c9 (hdig 9 (by decide))
  obtain ⟨k10, hk10, rfl, e10⟩ := digit_char c10 (hdig 10 (by decide))
  obtain ⟨k11, hk11, rfl, e11⟩ := digit_char c11 (hdig 11 (by decide))
  obtain ⟨k13, hk13, rfl, e13⟩ := digit_char c13 (hdig 13 (by decide))
  obtain ⟨k14, hk14, rfl, e14⟩ := digit_char c14 (hdig 14 (by decide))
  obtain ⟨k15, hk15, rfl, e15⟩ := digit_char c15 (hdig 15 (by decide))
  clear hdig hlen
  simp only [twoDigits, List.getD_cons_zero, List.getD_cons_succ] at hmon hday hh hm hs
  unfold zeroChar at e0 e1 e2 e3 e4 e5 e6 e7 e8 e9 e10 e11 e13 e14 e15
  rw [e2, e3] at hmon
  rw [e0, e1, e2, e3, e4, e5] at hday
  rw [e6, e7] at hh
  rw [e8, e9] at hm
  rw [e10, e11] at hs
  have hp : parseGpsu (charBuffer [Char.ofNat (48 + k0), Char.ofNat (48 + k1),
      Char.ofNat (48 + k2), Char.ofNat (48 + k3), Char.ofNat (48 + k4), Char.ofNat (48 + k5),
      Char.ofNat (48 + k6), Char.ofNat (48 + k7), Char.ofNat (48 + k8), Char.ofNat (48 + k9),
      Char.ofNat (48 + k10), Char.ofNat (48 + k11), c12, Char.ofNat (48 + k13),
      Char.ofNat (48 + k14), Char.ofNat (48 + k15)]) =
      { time := timegm
          { tm_year := ((10 * k0 + k1 + 100 : Nat) : Int),
            tm_mon := 10 * (k2 : Int) + k3 - 1,
            tm_mday := ((10 * k4 + k5 : Nat) : Int),
            tm_hour := ((10 * k6 + k7 : Nat) : Int),
            tm_min := ((10 * k8 + k9 : Nat) : Int),
            tm_sec := ((10 * k10 + k11 : Nat) : Int) },
        milliseconds := ((100 * k13 + 10 * k14 + k15 : Nat) : ℚ) } := by
    simp only [parseGpsu, charBuffer, List.map, List.getD_cons_zero, List.getD_cons_succ,
      zeroChar, e0, e1, e2, e3, e4, e5, e6, e7, e8, e9, e10, e11, e13, e14, e15]
    push_cast
    rfl
  rw [hp]
  have hyear : ((10 * k0 + k1 + 100 : Nat) : Int) + 1900 = 2000 + (10 * (k0 : Int) + k1) := by
    push_cast; ring
  have hrt := gmtime_timegm
    { tm_year := ((10 * k0 + k1 + 100 : Nat) : Int),
      tm_mon := 10 * (k2 : Int) + k3 - 1,
      tm_mday := ((10 * k4 + k5 : Nat) : Int),
      tm_hour := ((10 * k6 + k7 : Nat) : Int),
      tm_min := ((10 * k8 + k9 : Nat) : Int),
      tm_sec := ((10 * k10 + k11 : Nat) : Int) }
    (by simp only; omega)
    (by simp only; rw [hyear]; push_cast; exact hday)
    (by simp only; omega) (by simp only; omega) (by simp only; omega)
  have hmonth : 10 * (k2 : Int) + k3 - 1 + 1 = ((10 * k2 + k3 : Nat) : Int) := by
    push_cast; ring
  have hy2 : ((10 * k0 + k1 + 100 : Nat) : Int) + 1900 = ((2000 + 10 * k0 + k1 : Nat) : Int) := by
    push_cast; ring
  simp only [dateColumn, hrt, strftime, hmonth, hy2, toInt_natCast, fmtInt_natCast,
    digits_year k0 hk0 k1 hk1, digits_two k2 hk2 k3 hk3, digits_two k4 hk4 k5 hk5,
    digits_two k6 hk6 k7 hk7, digits_two k8 hk8 k9 hk9, digits_two k10 hk10 k11 hk11,
    digits_three k13 hk13 k14 hk14 k15 hk15, isoText, List.getD_cons_zero,
    List.getD_cons_succ]
  rfl

/-! ## The sample loop (lines 138-192) -/

theorem fourcc_values :
    STR2FOURCC "GPSU" = 1431523399 ∧ STR2FOURCC "GPS5" = 894652487 ∧
    STR2FOURCC "GPSF" = 1179865159 ∧ STR2FOURCC "GPSP" = 1347637319 := by
  decide

theorem sampleBody_gpsu (file_start step : ℚ) (r : Record) (s : LoopState)
    (hk : r.key = STR2FOURCC "GPSU") :
    sampleBody file_start step r s =
      ({ s with loc := { s.loc with gpsu := parseGpsu r.chars } }, []) := by
  simp [sampleBody, hk]

theorem sampleBody_gps5 (file_start step : ℚ) (r : Record) (s : LoopState)
    (hk : r.key = STR2FOURCC "GPS5") :
    sampleBody file_start step r s =
      ({ ptr := s.ptr + r.elements, now := s.now + step,
         loc := { s.loc with gpsu := advance s.loc.gpsu step } },
       [Event.row { cts := (file_start + s.now) * 1000, date := dateColumn s.loc.gpsu,
                    data := readData r.doubles s.ptr r.elements, fix := s.loc.fix,
                    precision := s.loc.precision }]) := by
  obtain ⟨h1, h2, h3, h4⟩ := fourcc_values
  simp [sampleBody, hk, h1, h2]

theorem sampleBody_gpsf (file_start step : ℚ) (r : Record) (s : LoopState)
    (hk : r.key = STR2FOURCC "GPSF") :
    sampleBody file_start step r s = ({ s with loc := { s.loc with fix := r.u32 } }, []) := by
  obtain ⟨h1, h2, h3, h4⟩ := fourcc_values
  simp [sampleBody, hk, h1, h2, h3]

theorem sampleBody_gpsp (file_start step : ℚ) (r : Record) (s : LoopState)
    (hk : r.key = STR2FOURCC "GPSP") :
    sampleBody file_start step r s =
      ({ s with loc := { s.loc with precision := r.u16 } }, []) := by
  obtain ⟨h1, h2, h3, h4⟩ := fourcc_values
  simp [sampleBody, hk, h1, h2, h3, h4]

theorem sampleBody_other (file_start step : ℚ) (r : Record) (s : LoopState)
    (h1 : r.key ≠ STR2FOURCC "GPSU") (h2 : r.key ≠ STR2FOURCC "GPS5")
    (h3 : r.key ≠ STR2FOURCC "GPSF") (h4 : r.key ≠ STR2FOURCC "GPSP") :
    sampleBody file_start step r s = (s, []) := by
  simp [sampleBody, Ne.symm h1, Ne.symm h2, Ne.symm h3, Ne.symm h4]

theorem sampleLoop_gps5 (file_start step : ℚ) (r : Record) (hk : r.key = STR2FOURCC "GPS5")
    (n : Nat) (s : LoopState) :
    sampleLoop file_start step r n s =
      ({ ptr := s.ptr + n * r.elements, now := s.now + (n : ℚ) * step,
         loc := { s.loc with gpsu := advanceN step n s.loc.gpsu } },
       (List.range n).map (fun i => Event.row (gps5Row file_start step r s i))) := by
  induction n generalizing s with
  | zero => simp [sampleLoop, advanceN]
  | succ n ih =>
    rw [sampleLoop, sampleBody_gps5 file_start step r s hk]
    simp only [ih, List.range_succ_eq_map, List.map_cons, List.map_map, advanceN]
    refine Prod.ext ?_ ?_
    · simp only [LoopState.mk.injEq, and_true]
      refine ⟨by ring, by push_cast; ring⟩
    · simp only [List.singleton_append, List.cons.injEq]
      refine ⟨?_, ?_⟩
      · simp [gps5Row, advanceN]
      · apply List.map_congr_left
        intro i _
        simp only [Function.comp, gps5Row, advanceN, Event.row.injEq, Row.mk.injEq, and_true,
          true_and]
        refine ⟨by push_cast; ring, ?_⟩
        congr 1
        rw [Nat.succ_eq_add_one]
        ring

theorem sampleLoop_gpsu (file_start step : ℚ) (r : Record) (hk : r.key = STR2FOURCC "GPSU")
    (n : Nat) (s : LoopState) :
    sampleLoop file_start step r (n + 1) s =
      ({ s with loc := { s.loc with gpsu := parseGpsu r.chars } }, []) := by
  induction n generalizing s with
  | zero => simp [sampleLoop, sampleBody_gpsu file_start step r s hk]
  | succ n ih => rw [sampleLoop, sampleBody_gpsu file_start step r s hk]; simp [ih]

theorem sampleLoop_gpsf (file_start step : ℚ) (r : Record) (hk : r.key = STR2FOURCC "GPSF")
    (n : Nat) (s : LoopState) :
    sampleLoop file_start step r (n + 1) s =
      ({ s with loc := { s.loc with fix := r.u32 } }, []) := by
  induction n generalizing s with
  | zero => simp [sampleLoop, sampleBody_gpsf file_start step r s hk]
  | succ n ih => rw [sampleLoop, sampleBody_gpsf file_start step r s hk]; simp [ih]

theorem sampleLoop_gpsp (file_start step : ℚ) (r : Record) (hk : r.key = STR2FOURCC "GPSP")
    (n : Nat) (s : LoopState) :
    sampleLoop file_start step r (n + 1) s =
      ({ s with loc := { s.loc with precision := r.u16 } }, []) := by
  induction n generalizing s with
  | zero => simp [sampleLoop, sampleBody_gpsp file_start step r s hk]
  | succ n ih => rw [sampleLoop, sampleBody_gpsp file_start step r s hk]; simp [ih]

theorem sampleLoop_other (file_start step : ℚ) (r : Record)
    (h1 : r.key ≠ STR2FOURCC "GPSU") (h2 : r.key ≠ STR2FOURCC "GPS5")
    (h3 : r.key ≠ STR2FOURCC "GPSF") (h4 : r.key ≠ STR2FOURCC "GPSP")
    (n : Nat) (s : LoopState) :
    sampleLoop file_start step r n s = (s, []) := by
  induction n generalizing s with
  | zero => rfl
  | succ n ih => rw [sampleLoop, sampleBody_other file_start step r s h1 h2 h3 h4, ih]; rfl

theorem processRecord_reaches (file_start start finish : ℚ) (st : PayloadState) (r : Record)
    (h : Reaches r) :
    processRecord file_start start finish st r =
      ({ loc := (sampleLoop file_start ((finish - start) / (r.samples : ℚ)) r r.samples
            { ptr := 0, now := start, loc := st.loc }).1.loc,
         file_finish := finish },
       Event.stepdiv r.samples ::
         (sampleLoop file_start ((finish - start) / (r.samples : ℚ)) r r.samples
            { ptr := 0, now := start, loc := st.loc }).2) := by
  obtain ⟨h1, h2, h3, h4⟩ := h
  simp [processRecord, h1, h2, h3, h4]

theorem processRecord_skips (file_start start finish : ℚ) (st : PayloadState) (r : Record)
    (h : ¬ Reaches r) :
    processRecord file_start start finish st r = (st, []) := by
  unfold Reaches at h
  unfold processRecord
  by_cases h1 : r.samples = 0
  · simp [h1]
  by_cases h2 : r.structsize = 0
  · simp [h1, h2]
  by_cases h3 : r.malloc_ok = true
  · have h4 : ¬ decodeRes r = GPMF_OK := fun h4 => h ⟨h1, h2, h3, h4⟩
    have h5 : ¬ GPMF_OK = decodeRes r := fun h5 => h4 h5.symm
    simp [h1, h2, h3, h5]
  · simp [h1, h2, h3]

/-! ## C1: the timestamp round trip -/

theorem parseGpsu_append (a t : List Int) (h : a.length = 16) :
    parseGpsu (a ++ t) = parseGpsu a := by
  have hg : ∀ i, i < 16 → (a ++ t).getD i 0 = a.getD i 0 := by
    intro i hi
    exact List.getD_append a t 0 i (by omega)
  simp only [parseGpsu, hg 0 (by decide), hg 1 (by decide), hg 2 (by decide), hg 3 (by decide),
    hg 4 (by decide), hg 5 (by decide), hg 6 (by decide), hg 7 (by decide), hg 8 (by decide),
    hg 9 (by decide), hg 10 (by decide), hg 11 (by decide), hg 13 (by decide),
    hg 14 (by decide), hg 15 (by decide)]

/-- C1: a valid sixteen character field "YYMMDDhhmmss.mmm", processed as a GPSU
record and followed by a GPS5 record, gives a first row whose date column is
exactly "20YY-MM-DDThh:mm:ss.mmmZ". -/
theorem C1_timestamp_round_trip (s : List Char) (hs : ValidField s)
    (file_start start finish : ℚ) (st : PayloadState) (u g : Record) (tail : List Int)
    (hu : Reaches u) (huk : u.key = STR2FOURCC "GPSU") (huc : u.chars = charBuffer s ++ tail)
    (hg : Reaches g) (hgk : g.key = STR2FOURCC "GPS5") :
    (rowsOf (recordLoop file_start start finish st [u, g]).2).head?.map Row.date
      = some (isoText s) := by
  have hlen : (charBuffer s).length = 16 := by simp [charBuffer, hs.1]
  obtain ⟨n, hn⟩ : ∃ n, u.samples = n + 1 := ⟨u.samples - 1, by have := hu.1; omega⟩
  obtain ⟨m, hm⟩ : ∃ m, g.samples = m + 1 := ⟨g.samples - 1, by have := hg.1; omega⟩
  simp only [recordLoop, processRecord_reaches _ _ _ _ _ hu, processRecord_reaches _ _ _ _ _ hg]
  rw [hn, sampleLoop_gpsu _ _ _ huk, sampleLoop_gps5 _ _ _ hgk, hm]
  simp only [huc, parseGpsu_append _ _ hlen, List.range_succ_eq_map, List.map_cons, rowsOf,
    List.append_nil, List.nil_append, List.cons_append, List.head?_cons, Option.map_some',
    gps5Row, advanceN, parse_format s hs]

/-- C1 at the specification's example: "210615123045.500" gives
"2021-06-15T12:30:45.500Z". -/
theorem C1_timestamp_round_trip_witness :
    ValidField exampleField ∧
    Reaches { okRecord (STR2FOURCC "GPSU") 1 with chars := charBuffer exampleField } ∧
    Reaches (okRecord (STR2FOURCC "GPS5") 1) ∧
    (rowsOf (recordLoop 0 0 1 ⟨⟨0, 0, ⟨0, 0⟩⟩, 0⟩
      [{ okRecord (STR2FOURCC "GPSU") 1 with chars := charBuffer exampleField },
       okRecord (STR2FOURCC "GPS5") 1]).2).head?.map Row.date
      = some "2021-06-15T12:30:45.500Z" :=
  ⟨by decide, by decide, by decide,
    C1_timestamp_round_trip exampleField (by decide) 0 0 1 ⟨⟨0, 0, ⟨0, 0⟩⟩, 0⟩
      { okRecord (STR2FOURCC "GPSU") 1 with chars := charBuffer exampleField }
      (okRecord (STR2FOURCC "GPS5") 1) [] (by decide) rfl (by simp [okRecord])
      (by decide) rfl⟩

/-! ## C4 and C8: one advance of the anchor, records with zero counts -/

theorem recordLoop_cons (file_start start finish : ℚ) (st : PayloadState) (r : Record)
    (rs : List Record) :
    recordLoop file_start start finish st (r :: rs) =
      ((recordLoop file_start start finish (processRecord file_start start finish st r).1 rs).1,
       (processRecord file_start start finish st r).2 ++
         (recordLoop file_start start finish (processRecord file_start start finish st r).1 rs).2) :=
  rfl

theorem recordLoop_skip (file_start start finish : ℚ) (st : PayloadState) (r : Record)
    (rs : List Record) (h : processRecord file_start start finish st r = (st, [])) :
    recordLoop file_start start finish st (r :: rs) = recordLoop file_start start finish st rs := by
  rw [recordLoop_cons, h]
  rfl

/-- C8: a record that reports a repeat count of 0 or a structure size of 0,
whatever its key, emits no row, evaluates no division, leaves fix, precision,
the time anchor and the last-finish value unchanged, and the loop goes on with
the next record. -/
theorem C8_zero_count_noop (file_start start finish : ℚ) (st : PayloadState) (r : Record)
    (rs : List Record) (h : r.samples = 0 ∨ r.structsize = 0) :
    processRecord file_start start finish st r = (st, []) ∧
    recordLoop file_start start finish st (r :: rs) =
      recordLoop file_start start finish st rs := by
  have hskip : processRecord file_start start finish st r = (st, []) := by
    apply processRecord_skips
    unfold Reaches
    rcases h with h | h
    · exact fun hr => hr.1 h
    · exact fun hr => hr.2.1 h
  exact ⟨hskip, recordLoop_skip _ _ _ _ _ _ hskip⟩

/-- C8 at a GPS5 record with repeat count 0. -/
theorem C8_zero_count_noop_witness :
    ((okRecord (STR2FOURCC "GPS5") 0).samples = 0 ∨
      (okRecord (STR2FOURCC "GPS5") 0).structsize = 0) ∧
    processRecord 0 0 1 ⟨⟨3, 100, ⟨0, 0⟩⟩, 7⟩ (okRecord (STR2FOURCC "GPS5") 0)
      = (⟨⟨3, 100, ⟨0, 0⟩⟩, 7⟩, []) ∧
    recordLoop 0 0 1 ⟨⟨3, 100, ⟨0, 0⟩⟩, 7⟩
        [okRecord (STR2FOURCC "GPS5") 0, okRecord (STR2FOURCC "GPS5") 1] =
      recordLoop 0 0 1 ⟨⟨3, 100, ⟨0, 0⟩⟩, 7⟩ [okRecord (STR2FOURCC "GPS5") 1] :=
  ⟨Or.inl rfl,
    C8_zero_count_noop 0 0 1 ⟨⟨3, 100, ⟨0, 0⟩⟩, 7⟩ (okRecord (STR2FOURCC "GPS5") 0)
      [okRecord (STR2FOURCC "GPS5") 1] (Or.inl rfl)⟩

/-! ## The record loop, record by record; C5 -/

theorem reaches_key (r : Record) (h : Reaches r) :
    r.key = STR2FOURCC "GPSU" ∨ r.key = STR2FOURCC "GPS5" ∨ r.key = STR2FOURCC "GPSF" ∨
      r.key = STR2FOURCC "GPSP" := by
  by_contra hne
  simp only [not_or] at hne
  obtain ⟨h1, h2, h3, h4⟩ := hne
  have hd : decodeRes r = GPMF_ERROR_UNKNOWN_TYPE := by
    simp [decodeRes, Ne.symm h1, Ne.symm h2, Ne.symm h3, Ne.symm h4]
  have := h.2.2.2
  rw [hd] at this
  exact absurd this (by decide)

theorem processRecord_gps5 (file_start start finish : ℚ) (st : PayloadState) (r : Record)
    (h : Reaches r) (hk : r.key = STR2FOURCC "GPS5") :
    processRecord file_start start finish st r =
      ({ loc := { st.loc with
            gpsu := advanceN ((finish - start) / (r.samples : ℚ)) r.samples st.loc.gpsu },
         file_finish := finish },
       Event.stepdiv r.samples :: (List.range r.samples).map (fun i => Event.row
         (gps5Row file_start ((finish - start) / (r.samples : ℚ)) r
           { ptr := 0, now := start, loc := st.loc } i))) := by
  rw [processRecord_reaches _ _ _ _ _ h, sampleLoop_gps5 _ _ _ hk]

theorem processRecord_gpsu (file_start start finish : ℚ) (st : PayloadState) (r : Record)
    (h : Reaches r) (hk : r.key = STR2FOURCC "GPSU") :
    processRecord file_start start finish st r =
      ({ loc := { st.loc with gpsu := parseGpsu r.chars }, file_finish := finish },
       [Event.stepdiv r.samples]) := by
  obtain ⟨n, hn⟩ : ∃ n, r.samples = n + 1 := ⟨r.samples - 1, by have := h.1; omega⟩
  rw [processRecord_reaches _ _ _ _ _ h]
  rw [show sampleLoop file_start ((finish - start) / (r.samples : ℚ)) r r.samples
      { ptr := 0, now := start, loc := st.loc } =
      sampleLoop file_start ((finish - start) / (r.samples : ℚ)) r (n + 1)
      { ptr := 0, now := start, loc := st.loc } by rw [hn]]
  rw [sampleLoop_gpsu _ _ _ hk]

theorem processRecord_gpsf (file_start start finish : ℚ) (st : PayloadState) (r : Record)
    (h : Reaches r) (hk : r.key = STR2FOURCC "GPSF") :
    processRecord file_start start finish st r =
      ({ loc := { st.loc with fix := r.u32 }, file_finish := finish },
       [Event.stepdiv r.samples]) := by
  obtain ⟨n, hn⟩ : ∃ n, r.samples = n + 1 := ⟨r.samples - 1, by have := h.1; omega⟩
  rw [processRecord_reaches _ _ _ _ _ h]
  rw [show sampleLoop file_start ((finish - start) / (r.samples : ℚ)) r r.samples
      { ptr := 0, now := start, loc := st.loc } =
      sampleLoop file_start ((finish - start) / (r.samples : ℚ)) r (n + 1)
      { ptr := 0, now := start, loc := st.loc } by rw [hn]]
  rw [sampleLoop_gpsf _ _ _ hk]

theorem processRecord_gpsp (file_start start finish : ℚ) (st : PayloadState) (r : Record)
    (h : Reaches r) (hk : r.key = STR2FOURCC "GPSP") :
    processRecord file_start start finish st r =
      ({ loc := { st.loc with precision := r.u16 }, file_finish := finish },
       [Event.stepdiv r.samples]) := by
  obtain ⟨n, hn⟩ : ∃ n, r.samples = n + 1 := ⟨r.samples - 1, by have := h.1; omega⟩
  rw [processRecord_reaches _ _ _ _ _ h]
  rw [show sampleLoop file_start ((finish - start) / (r.samples : ℚ)) r r.samples
      { ptr := 0, now := start, loc := st.loc } =
      sampleLoop file_start ((finish - start) / (r.samples : ℚ)) r (n + 1)
      { ptr := 0, now := start, loc := st.loc } by rw [hn]]
  rw [sampleLoop_gpsp _ _ _ hk]

theorem rowsOf_append (a b : List Event) : rowsOf (a ++ b) = rowsOf a ++ rowsOf b := by
  induction a with
  | nil => rfl
  | cons e es ih => cases e <;> simp [rowsOf, ih]

theorem rowsOf_map_row {α : Type} (f : α → Row) (l : List α) :
    rowsOf (l.map (fun i => Event.row (f i))) = l.map f := by
  induction l with
  | nil => rfl
  | cons r rs ih => simp [rowsOf, ih]

theorem divisorsOf_append (a b : List Event) :
    divisorsOf (a ++ b) = divisorsOf a ++ divisorsOf b := by
  induction a with
  | nil => rfl
  | cons e es ih => cases e <;> simp [divisorsOf, ih]

theorem divisorsOf_map_row {α : Type} (f : α → Row) (l : List α) :
    divisorsOf (l.map (fun i => Event.row (f i))) = [] := by
  induction l with
  | nil => rfl
  | cons r rs ih => simp [divisorsOf, ih]

/-- The rows one record emits. -/
theorem rowsOf_processRecord (file_start start finish : ℚ) (st : PayloadState) (r : Record) :
    rowsOf (processRecord file_start start finish st r).2 =
      if Reaches r ∧ r.key = STR2FOURCC "GPS5" then
        (List.range r.samples).map (fun i =>
          gps5Row file_start ((finish - start) / (r.samples : ℚ)) r
            { ptr := 0, now := start, loc := st.loc } i)
      else [] := by
  obtain ⟨v1, v2, v3, v4⟩ := fourcc_values
  by_cases h : Reaches r
  · rcases reaches_key r h with hk | hk | hk | hk
    · rw [processRecord_gpsu _ _ _ _ _ h hk, if_neg (by rw [hk, v1, v2]; simp)]; rfl
    · rw [processRecord_gps5 _ _ _ _ _ h hk, if_pos ⟨h, hk⟩]
      simp only [rowsOf]
      rw [rowsOf_map_row]
    · rw [processRecord_gpsf _ _ _ _ _ h hk, if_neg (by rw [hk, v3, v2]; simp)]; rfl
    · rw [processRecord_gpsp _ _ _ _ _ h hk, if_neg (by rw [hk, v4, v2]; simp)]; rfl
  · rw [processRecord_skips _ _ _ _ _ h, if_neg (fun hh => h hh.1)]; rfl

/-- The divisions one record evaluates. -/
theorem divisorsOf_processRecord (file_start start finish : ℚ) (st : PayloadState)
    (r : Record) :
    divisorsOf (processRecord file_start start finish st r).2 =
      if Reaches r then [r.samples] else [] := by
  by_cases h : Reaches r
  · rw [if_pos h]
    rcases reaches_key r h with hk | hk | hk | hk
    · rw [processRecord_gpsu _ _ _ _ _ h hk]; rfl
    · rw [processRecord_gps5 _ _ _ _ _ h hk]
      simp only [divisorsOf]
      rw [divisorsOf_map_row]
    · rw [processRecord_gpsf _ _ _ _ _ h hk]; rfl
    · rw [processRecord_gpsp _ _ _ _ _ h hk]; rfl
  · rw [processRecord_skips _ _ _ _ _ h, if_neg h]; rfl

theorem toInt_zero : toInt (0 : ℚ) = 0 := by
  have := toInt_natCast 0
  simpa using this

theorem toInt_1500 : toInt (1500 : ℚ) = 1500 := by
  have := toInt_natCast 1500
  simpa using this

/-- C5, the code at a failing input: a GPS5 record of two samples over a window
of five seconds has a step of 2.5 s; one advance from sub-second value 0
subtracts 1000 once only and leaves the sub-second value 1500, outside
[0,1000), with the second rolled forward once; the second row, 2.5 s after the
first, is dated one second after it with the millisecond field 1500. -/
theorem C5_large_step_leaves_range :
    (sampleBody 0 ((5 - 0) / 2) (okRecord (STR2FOURCC "GPS5") 2)
        ⟨0, 0, ⟨0, 0, ⟨0, 0⟩⟩⟩).1.loc.gpsu = { time := 1, milliseconds := 1500 } ∧
    ¬ ((sampleBody 0 ((5 - 0) / 2) (okRecord (STR2FOURCC "GPS5") 2)
        ⟨0, 0, ⟨0, 0, ⟨0, 0⟩⟩⟩).1.loc.gpsu.milliseconds < 1000) ∧
    (rowsOf (processRecord 0 0 5 ⟨⟨0, 0, ⟨0, 0⟩⟩, 0⟩
        (okRecord (STR2FOURCC "GPS5") 2)).2).map Row.date =
      ["1970-01-01T00:00:00.000Z", "1970-01-01T00:00:01.1500Z"] := by
  have hadv : advance { time := 0, milliseconds := 0 } ((5 - 0) / 2)
      = { time := 1, milliseconds := 1500 } := by
    norm_num [advance]
  have hd0 : dateColumn { time := 0, milliseconds := 0 } = "1970-01-01T00:00:00.000Z" := by
    simp only [dateColumn, toInt_zero]
    decide
  have hd1 : dateColumn { time := 1, milliseconds := 1500 } = "1970-01-01T00:00:01.1500Z" := by
    simp only [dateColumn, toInt_1500]
    decide
  refine ⟨?_, ?_, ?_⟩
  · rw [sampleBody_gps5 _ _ _ _ rfl]
    exact hadv
  · rw [sampleBody_gps5 _ _ _ _ rfl]
    simp only [hadv]
    norm_num
  · rw [rowsOf_processRecord, if_pos ⟨by decide, rfl⟩]
    have hs : ((okRecord (STR2FOURCC "GPS5") 2).samples : ℚ) = 2 := by
      simp [okRecord]
    have hn : (okRecord (STR2FOURCC "GPS5") 2).samples = 2 := rfl
    rw [hs, hn]
    simp only [List.range_succ, List.range_zero, List.nil_append, List.cons_append,
      List.map_cons, List.map_nil, gps5Row, advanceN, hadv, hd0, hd1]

/-! ## C2: the first column within one payload -/

theorem recordLoop_append (file_start start finish : ℚ) (st : PayloadState)
    (a b : List Record) :
    recordLoop file_start start finish st (a ++ b) =
      ((recordLoop file_start start finish (recordLoop file_start start finish st a).1 b).1,
       (recordLoop file_start start finish st a).2 ++
         (recordLoop file_start start finish (recordLoop file_start start finish st a).1 b).2) := by
  induction a generalizing st with
  | nil => rfl
  | cons r rs ih =>
    rw [List.cons_append, recordLoop_cons, ih, recordLoop_cons]
    simp only [List.append_assoc]

theorem rowsOf_recordLoop_nogps5 (file_start start finish : ℚ) (st : PayloadState)
    (rs : List Record) (h : ∀ r ∈ rs, r.key ≠ STR2FOURCC "GPS5") :
    rowsOf (recordLoop file_start start finish st rs).2 = [] := by
  induction rs generalizing st with
  | nil => rfl
  | cons r rs ih =>
    rw [recordLoop_cons, rowsOf_append, rowsOf_processRecord,
      if_neg (fun hh => h r (List.mem_cons_self r rs) hh.2),
      ih _ (fun x hx => h x (List.mem_cons_of_mem r hx))]
    rfl

/-- The rows of a payload with exactly one GPS5 record `g`. -/
theorem rows_single_gps5 (file_start file_finish : ℚ) (p : Payload) (pre post : List Record)
    (g : Record) (hsplit : p.first :: p.rest = pre ++ g :: post)
    (hpre : ∀ r ∈ pre, r.key ≠ STR2FOURCC "GPS5")
    (hpost : ∀ r ∈ post, r.key ≠ STR2FOURCC "GPS5")
    (hg : Reaches g) (hk : g.key = STR2FOURCC "GPS5") :
    rowsOf (processPayload file_start file_finish p).2 =
      (List.range g.samples).map (fun i =>
        gps5Row file_start ((p.finish - p.start) / (g.samples : ℚ)) g
          { ptr := 0, now := p.start,
            loc := (recordLoop file_start p.start p.finish
              { loc := p.indet, file_finish := file_finish } pre).1.loc } i) := by
  unfold processPayload
  rw [hsplit, recordLoop_append, recordLoop_cons]
  simp only [rowsOf_append, rowsOf_recordLoop_nogps5 _ _ _ _ pre hpre,
    rowsOf_recordLoop_nogps5 _ _ _ _ post hpost, rowsOf_processRecord, if_pos (And.intro hg hk),
    List.nil_append, List.append_nil]

theorem processRecord_state_indep (file_start start finish : ℚ) (st : PayloadState)
    (r : Record) :
    (processRecord file_start start finish st r).1 = (processRecord 0 start finish st r).1 := by
  by_cases h : Reaches r
  · rcases reaches_key r h with hk | hk | hk | hk
    · rw [processRecord_gpsu _ _ _ _ _ h hk, processRecord_gpsu _ _ _ _ _ h hk]
    · rw [processRecord_gps5 _ _ _ _ _ h hk, processRecord_gps5 _ _ _ _ _ h hk]
    · rw [processRecord_gpsf _ _ _ _ _ h hk, processRecord_gpsf _ _ _ _ _ h hk]
    · rw [processRecord_gpsp _ _ _ _ _ h hk, processRecord_gpsp _ _ _ _ _ h hk]
  · rw [processRecord_skips _ _ _ _ _ h, processRecord_skips _ _ _ _ _ h]

theorem recordLoop_state_indep (file_start start finish : ℚ) (st : PayloadState)
    (rs : List Record) :
    (recordLoop file_start start finish st rs).1 = (recordLoop 0 start finish st rs).1 := by
  induction rs generalizing st with
  | nil => rfl
  | cons r rs ih =>
    rw [recordLoop_cons, recordLoop_cons]
    simp only
    rw [processRecord_state_indep, ih]

theorem payloadLoop_cons_ok (file_start : ℚ) (p : Payload) (ps : List Payload) (ret : Nat)
    (ff : ℚ) (h1 : p.payload_ok = true) (h2 : p.time_ret = GPMF_OK)
    (h3 : p.init_ret = GPMF_OK) :
    payloadLoop file_start (p :: ps) ret ff =
      { payloadLoop file_start ps GPMF_OK (processPayload file_start ff p).1.file_finish with
        events := (processPayload file_start ff p).2 ++
          (payloadLoop file_start ps GPMF_OK
            (processPayload file_start ff p).1.file_finish).events } := by
  simp [payloadLoop, h1, h2, h3]

theorem payloadLoop_cons_stop (file_start : ℚ) (p : Payload) (ps : List Payload) (ret : Nat)
    (ff : ℚ) (h : ¬ (p.payload_ok = true ∧ p.time_ret = GPMF_OK ∧ p.init_ret = GPMF_OK)) :
    (payloadLoop file_start (p :: ps) ret ff).events = [] ∧
    (payloadLoop file_start (p :: ps) ret ff).file_finish = ff ∧
    (payloadLoop file_start (p :: ps) ret ff).ret =
      if p.payload_ok = false then ret
      else if p.time_ret ≠ GPMF_OK then p.time_ret else p.init_ret := by
  by_cases h1 : p.payload_ok = true
  · by_cases h2 : p.time_ret = GPMF_OK
    · have h3 : ¬ p.init_ret = GPMF_OK := fun h3 => h ⟨h1, h2, h3⟩
      simp [payloadLoop, h1, h2, h3]
    · simp [payloadLoop, h1, h2]
  · simp [payloadLoop, h1]

theorem payloadLoop_indep (file_start : ℚ) (ps : List Payload) (ret : Nat) (ff : ℚ) :
    (payloadLoop file_start ps ret ff).ret = (payloadLoop 0 ps ret ff).ret ∧
    (payloadLoop file_start ps ret ff).file_finish = (payloadLoop 0 ps ret ff).file_finish := by
  induction ps generalizing ret ff with
  | nil => exact ⟨rfl, rfl⟩
  | cons p ps ih =>
    by_cases h : p.payload_ok = true ∧ p.time_ret = GPMF_OK ∧ p.init_ret = GPMF_OK
    · rw [payloadLoop_cons_ok _ _ _ _ _ h.1 h.2.1 h.2.2,
        payloadLoop_cons_ok _ _ _ _ _ h.1 h.2.1 h.2.2]
      simp only
      have hs : (processPayload file_start ff p).1 = (processPayload 0 ff p).1 :=
        recordLoop_state_indep _ _ _ _ _
      rw [hs]
      exact ih _ _
    · obtain ⟨_, a2, a3⟩ := payloadLoop_cons_stop file_start p ps ret ff h
      obtain ⟨_, b2, b3⟩ := payloadLoop_cons_stop 0 p ps ret ff h
      exact ⟨by rw [a3, b3], by rw [a2, b2]⟩

theorem fileLoop_cons_ok (f : File) (fs : List File) (first : Bool) (off : ℚ)
    (h : FileOk f) :
    fileLoop (f :: fs) first GPMF_OK off =
      { fileLoop fs false GPMF_OK (off + fileFinish f) with
        events := (if first then [Event.header (printColumns 0 column_names)] else []) ++
          fileEvents off f ++ (fileLoop fs false GPMF_OK (off + fileFinish f)).events } := by
  obtain ⟨h1, h2, h3⟩ := h
  have hret : (payloadLoop off f.payloads GPMF_OK 0).ret = GPMF_OK := by
    rw [(payloadLoop_indep off f.payloads GPMF_OK 0).1]; exact h3
  have hff : (payloadLoop off f.payloads GPMF_OK 0).file_finish = fileFinish f :=
    (payloadLoop_indep off f.payloads GPMF_OK 0).2
  have h2' : ¬ f.metadataduration ≤ 0 := not_le.mpr h2
  simp only [fileLoop, h1, h2', if_false, hret, hff, ne_eq, not_true_eq_false, fileEvents]

theorem rowsOf_header (first : Bool) :
    rowsOf (if first then [Event.header (printColumns 0 column_names)] else []) = [] := by
  cases first <;> rfl

theorem offsetBefore_zero (files : List File) : offsetBefore files 0 = 0 := by
  simp [offsetBefore]

theorem offsetBefore_succ (f : File) (fs : List File) (k : Nat) :
    offsetBefore (f :: fs) (k + 1) = fileFinish f + offsetBefore fs k := by
  simp [offsetBefore]

theorem fileLoop_ok (files : List File) (first : Bool) (off : ℚ)
    (h : ∀ f ∈ files, FileOk f) :
    (fileLoop files first GPMF_OK off).exit = 0 ∧
    rowsOf (fileLoop files first GPMF_OK off).events =
      files.enum.flatMap (fun kf => rowsOf (fileEvents (off + offsetBefore files kf.1) kf.2)) := by
  induction files generalizing first off with
  | nil => exact ⟨rfl, rfl⟩
  | cons f fs ih =>
    have hf := h f (List.mem_cons_self f fs)
    have hfs : ∀ x ∈ fs, FileOk x := fun x hx => h x (List.mem_cons_of_mem f hx)
    obtain ⟨ih1, ih2⟩ := ih false (off + fileFinish f) hfs
    rw [fileLoop_cons_ok f fs first off hf]
    refine ⟨ih1, ?_⟩
    simp only [rowsOf_append, rowsOf_header, List.nil_append, ih2, List.enum_cons',
      List.flatMap_cons, offsetBefore_zero, add_zero, List.flatMap_map]
    congr 1
    apply List.flatMap_congr
    intro kf _
    simp only [Function.comp, Prod.map_fst, Prod.map_snd, id_eq, offsetBefore_succ, add_assoc]

theorem mem_rows_recordLoop (file_start start finish : ℚ) (st : PayloadState)
    (rs : List Record) (row : Row)
    (h : row ∈ rowsOf (recordLoop file_start start finish st rs).2) :
    ∃ g ∈ rs, ∃ i < g.samples,
      row.cts = (file_start + (start + (i : ℚ) * ((finish - start) / (g.samples : ℚ)))) * 1000 := by
  induction rs generalizing st with
  | nil => simp [recordLoop, rowsOf] at h
  | cons r rs ih =>
    rw [recordLoop_cons, rowsOf_append, List.mem_append, rowsOf_processRecord] at h
    rcases h with h | h
    · split at h
      · simp only [List.mem_map, List.mem_range] at h
        obtain ⟨i, hi, rfl⟩ := h
        exact ⟨r, List.mem_cons_self r rs, i, hi, rfl⟩
      · simp at h
    · obtain ⟨g, hg, i, hi, hrow⟩ := ih _ h
      exact ⟨g, List.mem_cons_of_mem r hg, i, hi, hrow⟩

theorem mem_rows_payloadLoop (file_start : ℚ) (ps : List Payload) (ret : Nat) (ff : ℚ)
    (row : Row) (h : row ∈ rowsOf (payloadLoop file_start ps ret ff).events) :
    ∃ p ∈ ps, ∃ g ∈ p.first :: p.rest, ∃ i < g.samples,
      row.cts = (file_start +
        (p.start + (i : ℚ) * ((p.finish - p.start) / (g.samples : ℚ)))) * 1000 := by
  induction ps generalizing ret ff with
  | nil => simp [payloadLoop, rowsOf] at h
  | cons p ps ih =>
    by_cases hp : p.payload_ok = true ∧ p.time_ret = GPMF_OK ∧ p.init_ret = GPMF_OK
    · rw [payloadLoop_cons_ok _ _ _ _ _ hp.1 hp.2.1 hp.2.2] at h
      simp only [rowsOf_append, List.mem_append] at h
      rcases h with h | h
      · obtain ⟨g, hg, i, hi, hrow⟩ := mem_rows_recordLoop _ _ _ _ _ _ h
        exact ⟨p, List.mem_cons_self p ps, g, hg, i, hi, hrow⟩
      · obtain ⟨q, hq, g, hg, i, hi, hrow⟩ := ih _ _ h
        exact ⟨q, List.mem_cons_of_mem p hq, g, hg, i, hi, hrow⟩
    · rw [(payloadLoop_cons_stop file_start p ps ret ff hp).1] at h
      simp [rowsOf] at h

theorem main_ok (files : List File) (hne : files ≠ []) (hok : ∀ f ∈ files, FileOk f) :
    (main files).exit = 0 ∧
    rowsOf (main files).events =
      files.enum.flatMap (fun kf => rowsOf (fileEvents (offsetBefore files kf.1) kf.2)) := by
  have hlen : ¬ files.length + 1 < 2 := by
    cases files with
    | nil => exact absurd rfl hne
    | cons f fs => simp
  obtain ⟨h1, h2⟩ := fileLoop_ok files true 0 hok
  simp only [zero_add] at h2
  exact ⟨by simp only [main, if_neg hlen, h1], by simp only [main, if_neg hlen, h2]⟩

/-- C3: in a run over files that all process without error, the rows are those
of file 1, file 2, ... in order, file k being run at the offset
F_1 + ... + F_(k-1) of the last-finish values of the files before it, and every
row of file k has first column (F_1 + ... + F_(k-1) + now) * 1000, where now is
the row's offset within the file: the start of its payload plus its sample
index times the step. -/
theorem C3_multi_file_continuity (files : List File) (hne : files ≠ [])
    (hok : ∀ f ∈ files, FileOk f) :
    (main files).exit = 0 ∧
    rowsOf (main files).events =
      files.enum.flatMap (fun kf => rowsOf (fileEvents (offsetBefore files kf.1) kf.2)) ∧
    ∀ kf ∈ files.enum, ∀ row ∈ rowsOf (fileEvents (offsetBefore files kf.1) kf.2),
      ∃ p ∈ kf.2.payloads, ∃ g ∈ p.first :: p.rest, ∃ i < g.samples,
        row.cts = (offsetBefore files kf.1 +
          (p.start + (i : ℚ) * ((p.finish - p.start) / (g.samples : ℚ)))) * 1000 := by
  obtain ⟨h1, h2⟩ := main_ok files hne hok
  refine ⟨h1, h2, ?_⟩
  intro kf _ row hrow
  exact mem_rows_payloadLoop _ _ _ _ _ hrow

theorem fileOk_tenSecondFile : FileOk tenSecondFile := by
  refine ⟨by decide, by norm_num [tenSecondFile], ?_⟩
  simp [fileRet, tenSecondFile, gps5Payload, payloadLoop]

theorem tenSecondFile_finish : fileFinish tenSecondFile = 10 := by
  unfold fileFinish tenSecondFile
  simp only
  rw [payloadLoop_cons_ok _ _ _ _ _ rfl rfl rfl]
  simp only [payloadLoop, processPayload, gps5Payload, recordLoop]
  rw [processRecord_gps5 _ _ _ _ _ (by decide) rfl]

theorem tenSecondFile_cts (off : ℚ) :
    (rowsOf (fileEvents off tenSecondFile)).map Row.cts = [off * 1000, (off + 5) * 1000] := by
  unfold fileEvents tenSecondFile
  simp only
  rw [payloadLoop_cons_ok _ _ _ _ _ rfl rfl rfl]
  simp only [payloadLoop, List.append_nil]
  rw [rows_single_gps5 off 0 (gps5Payload 0 10 2) [] [] (okRecord (STR2FOURCC "GPS5") 2) rfl
    (by simp) (by simp) (by decide) rfl]
  simp only [okRecord, gps5Payload, gps5Row, List.range_succ, List.range_zero, List.nil_append,
    List.map_cons, List.map_nil, List.cons_append]
  norm_num

/-- C3 at two files whose last payload ends at 10 s: the first row of the
second file has first column (10 + 0) * 1000, not 0. -/
theorem C3_multi_file_continuity_witness :
    [tenSecondFile, tenSecondFile] ≠ [] ∧
    (∀ f ∈ [tenSecondFile, tenSecondFile], FileOk f) ∧
    (main [tenSecondFile, tenSecondFile]).exit = 0 ∧
    (rowsOf (main [tenSecondFile, tenSecondFile]).events).map Row.cts
      = [0, 5000, 10000, 15000] := by
  have hok : ∀ f ∈ [tenSecondFile, tenSecondFile], FileOk f := by
    intro f hf
    simp only [List.mem_cons, List.mem_singleton, List.not_mem_nil, or_false, or_self] at hf
    rw [hf]; exact fileOk_tenSecondFile
  have h := C3_multi_file_continuity [tenSecondFile, tenSecondFile] (by simp) hok
  refine ⟨by simp, hok, h.1, ?_⟩
  rw [h.2.1]
  simp only [List.enum_cons, List.enumFrom_cons, List.enumFrom_nil, List.flatMap_cons,
    List.flatMap_nil, List.append_nil, List.map_append, tenSecondFile_cts, offsetBefore,
    List.take, List.map_cons, List.map_nil, List.sum_cons, List.sum_nil, tenSecondFile_finish]
  norm_num

/-! ## C6: what a row carries -/

theorem rowsOf_payloadLoop_cons_ok (file_start : ℚ) (p : Payload) (ps : List Payload)
    (ret : Nat) (ff : ℚ) (h1 : p.payload_ok = true) (h2 : p.time_ret = GPMF_OK)
    (h3 : p.init_ret = GPMF_OK) :
    rowsOf (payloadLoop file_start (p :: ps) ret ff).events =
      rowsOf (processPayload file_start ff p).2 ++
        rowsOf (payloadLoop file_start ps GPMF_OK
          (processPayload file_start ff p).1.file_finish).events := by
  rw [payloadLoop_cons_ok _ _ _ _ _ h1 h2 h3, rowsOf_append]

theorem parseGpsu_milliseconds (cs : List Int) :
    (parseGpsu cs).milliseconds =
      ((100 * (cs.getD 13 0 - zeroChar) + 10 * (cs.getD 14 0 - zeroChar) +
        (cs.getD 15 0 - zeroChar) : Int) : ℚ) := by
  simp only [parseGpsu]
  push_cast
  rfl

theorem parse_badField :
    parseGpsu (charBuffer badField) = { time := 1623760280, milliseconds := 500 } := by
  have ht : (parseGpsu (charBuffer badField)).time = 1623760280 := by decide
  have hm : (parseGpsu (charBuffer badField)).milliseconds = 500 := by
    rw [parseGpsu_milliseconds]
    have hi : 100 * ((charBuffer badField).getD 13 0 - zeroChar) +
        10 * ((charBuffer badField).getD 14 0 - zeroChar) +
        ((charBuffer badField).getD 15 0 - zeroChar) = 500 := by decide
    rw [hi]
    norm_num
  cases hp : parseGpsu (charBuffer badField) with
  | mk t m =>
    rw [hp] at ht hm
    simp only at ht hm
    rw [ht, hm]

theorem date_badField :
    dateColumn { time := 1623760280, milliseconds := 500 } = "2021-06-15T12:31:20.500Z" := by
  have h : toInt (500 : ℚ) = 500 := by
    have := toInt_natCast 500
    simpa using this
  simp only [dateColumn, h]
  decide

theorem main_single (f : File) (hok : FileOk f) :
    (main [f]).exit = 0 ∧ rowsOf (main [f]).events = rowsOf (fileEvents 0 f) := by
  obtain ⟨h1, h2⟩ := main_ok [f] (by simp)
    (by intro x hx; rw [List.mem_singleton] at hx; rw [hx]; exact hok)
  refine ⟨h1, ?_⟩
  rw [h2]
  simp [List.enum_cons, offsetBefore]

theorem onePayloadFile_ok (first : Record) (rest : List Record) :
    FileOk (onePayloadFile first rest) := by
  refine ⟨by simp [onePayloadFile], by norm_num [onePayloadFile], ?_⟩
  simp [fileRet, onePayloadFile, payloadLoop]

theorem onePayloadFile_run (first : Record) (rest : List Record) :
    (main [onePayloadFile first rest]).exit = 0 ∧
    rowsOf (main [onePayloadFile first rest]).events =
      rowsOf (recordLoop 0 0 1 ⟨⟨0, 0, ⟨0, 0⟩⟩, 0⟩ (first :: rest)).2 := by
  obtain ⟨h1, h2⟩ := main_single _ (onePayloadFile_ok first rest)
  refine ⟨h1, ?_⟩
  rw [h2]
  simp [fileEvents, onePayloadFile, payloadLoop, processPayload, GPMF_OK]

theorem payloadLoop_ret_skeleton (fs fs' : ℚ) (ps ps' : List Payload) (ret : Nat) (ff ff' : ℚ)
    (h : ps.map payloadSkeleton = ps'.map payloadSkeleton) :
    (payloadLoop fs ps ret ff).ret = (payloadLoop fs' ps' ret ff').ret := by
  induction ps generalizing ps' ret ff ff' with
  | nil =>
    cases ps' with
    | nil => rfl
    | cons q qs => simp at h
  | cons p ps ih =>
    cases ps' with
    | nil => simp at h
    | cons q qs =>
      simp only [List.map_cons, List.cons.injEq, payloadSkeleton, Prod.mk.injEq] at h
      obtain ⟨⟨e1, e2, e3⟩, hrest⟩ := h
      by_cases hp : p.payload_ok = true ∧ p.time_ret = GPMF_OK ∧ p.init_ret = GPMF_OK
      · have hq : q.payload_ok = true ∧ q.time_ret = GPMF_OK ∧ q.init_ret = GPMF_OK := by
          rw [← e1, ← e2, ← e3]; exact hp
        rw [payloadLoop_cons_ok _ _ _ _ _ hp.1 hp.2.1 hp.2.2,
          payloadLoop_cons_ok _ _ _ _ _ hq.1 hq.2.1 hq.2.2]
        exact ih qs GPMF_OK _ _ hrest
      · have hq : ¬ (q.payload_ok = true ∧ q.time_ret = GPMF_OK ∧ q.init_ret = GPMF_OK) := by
          rw [← e1, ← e2, ← e3]; exact hp
        rw [(payloadLoop_cons_stop fs p ps ret ff hp).2.2,
          (payloadLoop_cons_stop fs' q qs ret ff' hq).2.2, e1, e2, e3]

theorem fileLoop_exit_skeleton (files files' : List File) (first first' : Bool) (ret : Nat)
    (off off' : ℚ) (h : files.map fileSkeleton = files'.map fileSkeleton) :
    (fileLoop files first ret off).exit = (fileLoop files' first' ret off').exit := by
  induction files generalizing files' first first' ret off off' with
  | nil =>
    cases files' with
    | nil => rfl
    | cons g gs => simp at h
  | cons f fs ih =>
    cases files' with
    | nil => simp at h
    | cons g gs =>
      simp only [List.map_cons, List.cons.injEq, fileSkeleton, Prod.mk.injEq,
        decide_eq_decide] at h
      obtain ⟨⟨e1, e2, e3⟩, hrest⟩ := h
      have hret := payloadLoop_ret_skeleton off off' f.payloads g.payloads ret 0 0 e3
      simp only [fileLoop]
      by_cases h1 : f.mp4handle = 0
      · have h1' : g.mp4handle = 0 := by rw [← e1]; exact h1
        simp [h1, h1']
      · have h1' : ¬ g.mp4handle = 0 := by rw [← e1]; exact h1
        by_cases h2 : f.metadataduration ≤ 0
        · have h2' : g.metadataduration ≤ 0 := e2.mp h2
          simp [h1, h1', h2, h2']
        · have h2' : ¬ g.metadataduration ≤ 0 := fun hh => h2 (e2.mpr hh)
          simp only [h1, h1', h2, h2', if_false, ← hret]
          by_cases h3 : (payloadLoop off f.payloads ret 0).ret = GPMF_OK
          · simp only [h3, ne_eq, not_true_eq_false, if_false]
            exact ih gs false false GPMF_OK _ _ hrest
          · simp only [h3, ne_eq, not_false_eq_true, if_true]

/-- The exit status of a run is decided by the skeletons of the files alone. -/
theorem exit_skeleton (files files' : List File)
    (h : files.map fileSkeleton = files'.map fileSkeleton) :
    (main files).exit = (main files').exit := by
  have hlen : files.length = files'.length := by
    have := congrArg List.length h
    simpa using this
  simp only [main, hlen]
  split
  · rfl
  · exact fileLoop_exit_skeleton files files' true true GPMF_OK 0 0 h

theorem divisorsOf_recordLoop (file_start start finish : ℚ) (st : PayloadState)
    (rs : List Record) :
    ∀ n ∈ divisorsOf (recordLoop file_start start finish st rs).2, n ≠ 0 := by
  induction rs generalizing st with
  | nil => intro n hn; simp [recordLoop, divisorsOf] at hn
  | cons r rs ih =>
    intro n hn
    rw [recordLoop_cons, divisorsOf_append, List.mem_append, divisorsOf_processRecord] at hn
    rcases hn with hn | hn
    · split at hn
      · rename_i hr
        rw [List.mem_singleton] at hn
        rw [hn]; exact hr.1
      · simp at hn
    · exact ih _ n hn

theorem divisorsOf_payloadLoop (file_start : ℚ) (ps : List Payload) (ret : Nat) (ff : ℚ) :
    ∀ n ∈ divisorsOf (payloadLoop file_start ps ret ff).events, n ≠ 0 := by
  induction ps generalizing ret ff with
  | nil => intro n hn; simp [payloadLoop, divisorsOf] at hn
  | cons p ps ih =>
    intro n hn
    by_cases hp : p.payload_ok = true ∧ p.time_ret = GPMF_OK ∧ p.init_ret = GPMF_OK
    · rw [payloadLoop_cons_ok _ _ _ _ _ hp.1 hp.2.1 hp.2.2] at hn
      simp only [divisorsOf_append, List.mem_append] at hn
      rcases hn with hn | hn
      · exact divisorsOf_recordLoop _ _ _ _ _ n hn
      · exact ih _ _ n hn
    · rw [(payloadLoop_cons_stop file_start p ps ret ff hp).1] at hn
      simp [divisorsOf] at hn

theorem divisorsOf_header (first : Bool) :
    divisorsOf (if first then [Event.header (printColumns 0 column_names)] else []) = [] := by
  cases first <;> rfl

theorem divisorsOf_fileLoop (files : List File) (first : Bool) (ret : Nat) (off : ℚ) :
    ∀ n ∈ divisorsOf (fileLoop files first ret off).events, n ≠ 0 := by
  induction files generalizing first ret off with
  | nil => intro n hn; simp [fileLoop, divisorsOf] at hn
  | cons f fs ih =>
    intro n hn
    simp only [fileLoop] at hn
    split at hn
    · simp [divisorsOf] at hn
    · split at hn
      · simp [divisorsOf] at hn
      · split at hn
        · simp only [divisorsOf_append, divisorsOf_header, List.nil_append] at hn
          exact divisorsOf_payloadLoop _ _ _ _ n hn
        · simp only [divisorsOf_append, divisorsOf_header, List.nil_append,
            List.mem_append] at hn
          rcases hn with hn | hn
          · exact divisorsOf_payloadLoop _ _ _ _ n hn
          · exact ih _ _ _ n hn

theorem divisorsOf_main (files : List File) :
    ∀ n ∈ divisorsOf (main files).events, n ≠ 0 := by
  intro n hn
  simp only [main] at hn
  split at hn
  · simp [divisorsOf] at hn
  · exact divisorsOf_fileLoop _ _ _ _ n hn

theorem decodeRes_known (r : Record)
    (hk : r.key = STR2FOURCC "GPSU" ∨ r.key = STR2FOURCC "GPSF" ∨
      r.key = STR2FOURCC "GPSP" ∨ r.key = STR2FOURCC "GPS5") :
    decodeRes r = r.decode_res := by
  obtain ⟨v1, v2, v3, v4⟩ := fourcc_values
  rcases hk with hk | hk | hk | hk <;> simp [decodeRes, hk, v1, v2, v3, v4]

/-- C7 as amended: a GPSU record is processed whatever the characters of its
field: no error is raised, the time anchor is set from the field with every
character c at a digit position entering the arithmetic as c - '0', the loop
goes on with the next record, and the exit status of the run does not depend
on the field. -/
theorem C7_malformed_field_accepted (file_start start finish : ℚ) (st : PayloadState)
    (u : Record) (rs : List Record) (files files' : List File)
    (hu : Reaches u) (hk : u.key = STR2FOURCC "GPSU")
    (hsk : files.map fileSkeleton = files'.map fileSkeleton) :
    processRecord file_start start finish st u =
      ({ loc := { st.loc with gpsu := parseGpsu u.chars }, file_finish := finish },
       [Event.stepdiv u.samples]) ∧
    (parseGpsu u.chars).time = timegm
      { tm_year := 10 * (u.chars.getD 0 0 - 48) + (u.chars.getD 1 0 - 48) + 100,
        tm_mon := 10 * (u.chars.getD 2 0 - 48) + (u.chars.getD 3 0 - 48) - 1,
        tm_mday := 10 * (u.chars.getD 4 0 - 48) + (u.chars.getD 5 0 - 48),
        tm_hour := 10 * (u.chars.getD 6 0 - 48) + (u.chars.getD 7 0 - 48),
        tm_min := 10 * (u.chars.getD 8 0 - 48) + (u.chars.getD 9 0 - 48),
        tm_sec := 10 * (u.chars.getD 10 0 - 48) + (u.chars.getD 11 0 - 48) } ∧
    (parseGpsu u.chars).milliseconds =
      ((100 * (u.chars.getD 13 0 - 48) + 10 * (u.chars.getD 14 0 - 48) +
        (u.chars.getD 15 0 - 48) : Int) : ℚ) ∧
    (recordLoop file_start start finish st (u :: rs)).2 =
      Event.stepdiv u.samples ::
        (recordLoop file_start start finish
          { loc := { st.loc with gpsu := parseGpsu u.chars }, file_finish := finish } rs).2 ∧
    (main files).exit = (main files').exit := by
  refine ⟨processRecord_gpsu _ _ _ _ _ hu hk, rfl, parseGpsu_milliseconds _, ?_,
    exit_skeleton files files' hsk⟩
  rw [recordLoop_cons, processRecord_gpsu _ _ _ _ _ hu hk]
  rfl

/-- C7 as amended, at the field "21061512304X.500": the anchor is set to
12:31:20.500 of 2021-06-15 (the X counts as 40 seconds). -/
theorem C7_malformed_field_accepted_witness :
    Reaches badGpsu ∧
    processRecord 0 0 1 ⟨⟨0, 0, ⟨0, 0⟩⟩, 0⟩
        badGpsu =
      ({ loc := ⟨0, 0, ⟨1623760280, 500⟩⟩, file_finish := 1 }, [Event.stepdiv 1]) := by
  refine ⟨by decide, ?_⟩
  rw [(C7_malformed_field_accepted 0 0 1 ⟨⟨0, 0, ⟨0, 0⟩⟩, 0⟩
    badGpsu [] [] []
    (by decide) rfl rfl).1]
  have hp : parseGpsu badGpsu.chars = { time := 1623760280, milliseconds := 500 } :=
    parse_badField
  simp only [hp]
  rfl

/-- C7 as stated fails: the run over a file whose GPSU field is
"21061512304X.500" ends with exit status 0 and emits a row whose date column is
derived from that field. -/
theorem C7_counterexample :
    (main [onePayloadFile
        badGpsu
        [okRecord (STR2FOURCC "GPS5") 1]]).exit = 0 ∧
    (rowsOf (main [onePayloadFile
        badGpsu
        [okRecord (STR2FOURCC "GPS5") 1]]).events).map Row.date
      = ["2021-06-15T12:31:20.500Z"] := by
  obtain ⟨h1, h2⟩ := onePayloadFile_run
    badGpsu
    [okRecord (STR2FOURCC "GPS5") 1]
  refine ⟨h1, ?_⟩
  rw [h2, recordLoop_cons, recordLoop_cons, processRecord_gpsu _ _ _ _ badGpsu (by decide) rfl]
  simp only
  rw [processRecord_gps5 _ _ _ _ (okRecord (STR2FOURCC "GPS5") 1) (by decide) rfl]
  have hp : parseGpsu badGpsu.chars = { time := 1623760280, milliseconds := 500 } :=
    parse_badField
  simp only [rowsOf_append, rowsOf, rowsOf_map_row, recordLoop, List.nil_append,
    List.append_nil, hp, okRecord, List.range_succ, List.range_zero, List.map_cons,
    List.map_nil, gps5Row, advanceN, date_badField]

/-- C9 as amended: a GPS5 record with zero samples is skipped: it emits no row,
changes no state, raises no error, the loop goes on with the next record, the
exit status of the run does not depend on it, and no run ever evaluates the
division of line 133 with divisor 0. -/
theorem C9_zero_sample_gps5_skipped (file_start start finish : ℚ) (st : PayloadState)
    (r : Record) (rs : List Record) (files files' : List File)
    (hk : r.key = STR2FOURCC "GPS5") (h0 : r.samples = 0)
    (hsk : files.map fileSkeleton = files'.map fileSkeleton) :
    processRecord file_start start finish st r = (st, []) ∧
    recordLoop file_start start finish st (r :: rs) =
      recordLoop file_start start finish st rs ∧
    (main files).exit = (main files').exit ∧
    ∀ n ∈ divisorsOf (main files).events, n ≠ 0 := by
  have hskip : processRecord file_start start finish st r = (st, []) :=
    processRecord_skips _ _ _ _ _ (fun hr => hr.1 h0)
  exact ⟨hskip, recordLoop_skip _ _ _ _ _ _ hskip, exit_skeleton files files' hsk,
    divisorsOf_main files⟩

/-- C9 as amended, at a payload whose first record is a GPS5 record with zero
samples: the run is the run without that record. -/
theorem C9_zero_sample_gps5_skipped_witness :
    (okRecord (STR2FOURCC "GPS5") 0).key = STR2FOURCC "GPS5" ∧
    (okRecord (STR2FOURCC "GPS5") 0).samples = 0 ∧
    recordLoop 0 0 1 ⟨⟨0, 0, ⟨0, 0⟩⟩, 0⟩
        [okRecord (STR2FOURCC "GPS5") 0, okRecord (STR2FOURCC "GPS5") 1] =
      recordLoop 0 0 1 ⟨⟨0, 0, ⟨0, 0⟩⟩, 0⟩ [okRecord (STR2FOURCC "GPS5") 1] ∧
    ∀ n ∈ divisorsOf (main [onePayloadFile (okRecord (STR2FOURCC "GPS5") 0)
        [okRecord (STR2FOURCC "GPS5") 1]]).events, n ≠ 0 :=
  have h := C9_zero_sample_gps5_skipped 0 0 1 ⟨⟨0, 0, ⟨0, 0⟩⟩, 0⟩
    (okRecord (STR2FOURCC "GPS5") 0) [okRecord (STR2FOURCC "GPS5") 1]
    [onePayloadFile (okRecord (STR2FOURCC "GPS5") 0) [okRecord (STR2FOURCC "GPS5") 1]]
    [onePayloadFile (okRecord (STR2FOURCC "GPS5") 0) [okRecord (STR2FOURCC "GPS5") 1]]
    rfl rfl rfl
  ⟨rfl, rfl, h.2.1, h.2.2.2⟩

/-- C9 as stated fails: the run over a payload whose first record is a GPS5
record with zero samples ends with exit status 0, and the GPS5 record after it
is processed and emits its row. -/
theorem C9_counterexample :
    (main [onePayloadFile (okRecord (STR2FOURCC "GPS5") 0)
        [okRecord (STR2FOURCC "GPS5") 1]]).exit = 0 ∧
    (rowsOf (main [onePayloadFile (okRecord (STR2FOURCC "GPS5") 0)
        [okRecord (STR2FOURCC "GPS5") 1]]).events).length = 1 := by
  obtain ⟨h1, h2⟩ := onePayloadFile_run (okRecord (STR2FOURCC "GPS5") 0)
    [okRecord (STR2FOURCC "GPS5") 1]
  refine ⟨h1, ?_⟩
  rw [h2, recordLoop_skip _ _ _ _ _ _ (processRecord_skips _ _ _ _ _ (by decide)),
    recordLoop_cons, processRecord_gps5 _ _ _ _ _ (by decide) rfl]
  simp [rowsOf_append, rowsOf, rowsOf_map_row, recordLoop, okRecord]

/-- C10 as amended: a record with key GPSU, GPSF, GPSP or GPS5 whose decode
returns a value other than GPMF_OK is skipped: it emits no row, changes no
state, raises no error, the loop goes on with the next record, and the exit
status of the run does not depend on it. -/
theorem C10_decode_failure_skipped (file_start start finish : ℚ) (st : PayloadState)
    (r : Record) (rs : List Record) (files files' : List File)
    (hk : r.key = STR2FOURCC "GPSU" ∨ r.key = STR2FOURCC "GPSF" ∨
      r.key = STR2FOURCC "GPSP" ∨ r.key = STR2FOURCC "GPS5")
    (hres : r.decode_res ≠ GPMF_OK)
    (hsk : files.map fileSkeleton = files'.map fileSkeleton) :
    processRecord file_start start finish st r = (st, []) ∧
    recordLoop file_start start finish st (r :: rs) =
      recordLoop file_start start finish st rs ∧
    (main files).exit = (main files').exit := by
  have hskip : processRecord file_start start finish st r = (st, []) :=
    processRecord_skips _ _ _ _ _
      (fun hr => hres (by rw [← decodeRes_known r hk]; exact hr.2.2.2))
  exact ⟨hskip, recordLoop_skip _ _ _ _ _ _ hskip, exit_skeleton files files' hsk⟩

/-- C10 as amended, at a GPSU record whose decode returns 1: the run has the
exit status of the run in which the decode succeeds. -/
theorem C10_decode_failure_skipped_witness :
    ((failedGpsu.key
        = STR2FOURCC "GPSU") ∨
      (failedGpsu.key
        = STR2FOURCC "GPSF") ∨
      (failedGpsu.key
        = STR2FOURCC "GPSP") ∨
      (failedGpsu.key
        = STR2FOURCC "GPS5")) ∧
    failedGpsu.decode_res ≠ GPMF_OK ∧
    [onePayloadFile failedGpsu
        [okRecord (STR2FOURCC "GPS5") 1]].map fileSkeleton =
      [onePayloadFile (okRecord (STR2FOURCC "GPSU") 1)
        [okRecord (STR2FOURCC "GPS5") 1]].map fileSkeleton ∧
    (main [onePayloadFile failedGpsu
        [okRecord (STR2FOURCC "GPS5") 1]]).exit =
      (main [onePayloadFile (okRecord (STR2FOURCC "GPSU") 1)
        [okRecord (STR2FOURCC "GPS5") 1]]).exit :=
  ⟨Or.inl rfl, by decide, rfl,
    (C10_decode_failure_skipped 0 0 1 ⟨⟨0, 0, ⟨0, 0⟩⟩, 0⟩
      failedGpsu
      [okRecord (STR2FOURCC "GPS5") 1]
      [onePayloadFile failedGpsu
        [okRecord (STR2FOURCC "GPS5") 1]]
      [onePayloadFile (okRecord (STR2FOURCC "GPSU") 1) [okRecord (STR2FOURCC "GPS5") 1]]
      (Or.inl rfl) (by decide) rfl).2.2⟩

/-- C10 as stated fails: the run over a payload whose GPSU record fails to
decode ends with exit status 0, and the GPS5 record after it is processed and
emits its row. -/
theorem C10_counterexample :
    (main [onePayloadFile failedGpsu
        [okRecord (STR2FOURCC "GPS5") 1]]).exit = 0 ∧
    (rowsOf (main [onePayloadFile failedGpsu
        [okRecord (STR2FOURCC "GPS5") 1]]).events).length = 1 := by
  obtain ⟨h1, h2⟩ := onePayloadFile_run
    failedGpsu [okRecord (STR2FOURCC "GPS5") 1]
  refine ⟨h1, ?_⟩
  rw [h2, recordLoop_skip _ _ _ _ _ _ (processRecord_skips _ _ _ _ _ (by decide)),
    recordLoop_cons, processRecord_gps5 _ _ _ _ _ (by decide) rfl]
  simp [rowsOf_append, rowsOf, rowsOf_map_row, recordLoop, okRecord]

/-! ## C14 and C16: records that emit nothing, and the rows of a GPS5 record -/

theorem not_reaches_unknown (r : Record)
    (h1 : r.key ≠ STR2FOURCC "GPSU") (h2 : r.key ≠ STR2FOURCC "GPSF")
    (h3 : r.key ≠ STR2FOURCC "GPSP") (h4 : r.key ≠ STR2FOURCC "GPS5") : ¬ Reaches r := by
  intro h
  rcases reaches_key r h with hk | hk | hk | hk
  · exact h1 hk
  · exact h4 hk
  · exact h2 hk
  · exact h3 hk

/-- C14: a record whose key is none of GPSU, GPSF, GPSP, GPS5, whatever its
repeat count and structure size, emits no row, evaluates no division, leaves
fix, precision, the time anchor and the last-finish value unchanged, raises no
error (the exit status of a run does not depend on any record), and the loop
goes on with the next record. -/
theorem C14_unknown_key_ignored (file_start start finish : ℚ) (st : PayloadState)
    (r : Record) (rs : List Record) (files files' : List File)
    (h1 : r.key ≠ STR2FOURCC "GPSU") (h2 : r.key ≠ STR2FOURCC "GPSF")
    (h3 : r.key ≠ STR2FOURCC "GPSP") (h4 : r.key ≠ STR2FOURCC "GPS5")
    (hsk : files.map fileSkeleton = files'.map fileSkeleton) :
    processRecord file_start start finish st r = (st, []) ∧
    recordLoop file_start start finish st (r :: rs) =
      recordLoop file_start start finish st rs ∧
    (main files).exit = (main files').exit := by
  have hskip : processRecord file_start start finish st r = (st, []) :=
    processRecord_skips _ _ _ _ _ (not_reaches_unknown r h1 h2 h3 h4)
  exact ⟨hskip, recordLoop_skip _ _ _ _ _ _ hskip, exit_skeleton files files' hsk⟩

/-- C14 at an ACCL record with non-zero counts in front of a GPS5 record. -/
theorem C14_unknown_key_ignored_witness :
    acclRecord.key ≠ STR2FOURCC "GPSU" ∧ acclRecord.key ≠ STR2FOURCC "GPSF" ∧
    acclRecord.key ≠ STR2FOURCC "GPSP" ∧ acclRecord.key ≠ STR2FOURCC "GPS5" ∧
    acclRecord.samples ≠ 0 ∧ acclRecord.structsize ≠ 0 ∧
    processRecord 0 0 1 ⟨⟨3, 100, ⟨5, 250⟩⟩, 7⟩ acclRecord = (⟨⟨3, 100, ⟨5, 250⟩⟩, 7⟩, []) ∧
    recordLoop 0 0 1 ⟨⟨3, 100, ⟨5, 250⟩⟩, 7⟩ [acclRecord, okRecord (STR2FOURCC "GPS5") 1] =
      recordLoop 0 0 1 ⟨⟨3, 100, ⟨5, 250⟩⟩, 7⟩ [okRecord (STR2FOURCC "GPS5") 1] ∧
    (main [onePayloadFile acclRecord []]).exit = (main [onePayloadFile acclRecord []]).exit :=
  ⟨by decide, by decide, by decide, by decide, by decide, by decide,
    C14_unknown_key_ignored 0 0 1 ⟨⟨3, 100, ⟨5, 250⟩⟩, 7⟩ acclRecord
      [okRecord (STR2FOURCC "GPS5") 1] [onePayloadFile acclRecord []]
      [onePayloadFile acclRecord []] (by decide) (by decide) (by decide) (by decide) rfl⟩

theorem rowsOf_recordLoop_none (file_start start finish : ℚ) (st : PayloadState)
    (rs : List Record) (h : ∀ r ∈ rs, ¬ (Reaches r ∧ r.key = STR2FOURCC "GPS5")) :
    rowsOf (recordLoop file_start start finish st rs).2 = [] := by
  induction rs generalizing st with
  | nil => rfl
  | cons r rs ih =>
    rw [recordLoop_cons, rowsOf_append, rowsOf_processRecord,
      if_neg (h r (List.mem_cons_self r rs)),
      ih _ (fun x hx => h x (List.mem_cons_of_mem r hx))]
    rfl

/-- The rows of a payload in which `g` is the only GPS5 record whose samples are
looped over. -/
theorem rows_only_gps5 (file_start file_finish : ℚ) (p : Payload) (pre post : List Record)
    (g : Record) (hsplit : p.first :: p.rest = pre ++ g :: post)
    (hpre : ∀ r ∈ pre, ¬ (Reaches r ∧ r.key = STR2FOURCC "GPS5"))
    (hpost : ∀ r ∈ post, ¬ (Reaches r ∧ r.key = STR2FOURCC "GPS5"))
    (hg : Reaches g) (hk : g.key = STR2FOURCC "GPS5") :
    rowsOf (processPayload file_start file_finish p).2 =
      (List.range g.samples).map (fun i =>
        gps5Row file_start ((p.finish - p.start) / (g.samples : ℚ)) g
          { ptr := 0, now := p.start,
            loc := (recordLoop file_start p.start p.finish
              { loc := p.indet, file_finish := file_finish } pre).1.loc } i) := by
  unfold processPayload
  rw [hsplit, recordLoop_append, recordLoop_cons]
  simp only [rowsOf_append, rowsOf_recordLoop_none _ _ _ _ pre hpre,
    rowsOf_recordLoop_none _ _ _ _ post hpost, rowsOf_processRecord, if_pos (And.intro hg hk),
    List.nil_append, List.append_nil]

theorem readData_length (doubles : List ℚ) (ptr elements : Nat) :
    (readData doubles ptr elements).length = elements := by
  simp [readData]

/-- C16: a payload in which exactly one GPS5 record `g`, of N samples, is
decoded emits exactly N rows, N >= 1; the row of sample i holds the `elements`
doubles of the decoded buffer from index i * elements on, so the rows come in
sample order with `elements` position fields each; a GPSU, GPSF or GPSP record
emits no row. -/
theorem C16_row_count (file_start file_finish : ℚ) (p : Payload) (pre post : List Record)
    (g : Record) (hsplit : p.first :: p.rest = pre ++ g :: post)
    (hpre : ∀ r ∈ pre, ¬ (Reaches r ∧ r.key = STR2FOURCC "GPS5"))
    (hpost : ∀ r ∈ post, ¬ (Reaches r ∧ r.key = STR2FOURCC "GPS5"))
    (hg : Reaches g) (hk : g.key = STR2FOURCC "GPS5") :
    (rowsOf (processPayload file_start file_finish p).2).length = g.samples ∧
    1 ≤ g.samples ∧
    (rowsOf (processPayload file_start file_finish p).2).map Row.data =
      (List.range g.samples).map (fun i => readData g.doubles (i * g.elements) g.elements) ∧
    (∀ row ∈ rowsOf (processPayload file_start file_finish p).2,
      row.data.length = g.elements) ∧
    (rowsOf (processPayload file_start file_finish p).2).map Row.cts =
      (List.range g.samples).map (fun (i : Nat) =>
        (file_start + (p.start + (i : ℚ) * ((p.finish - p.start) / (g.samples : ℚ)))) * 1000) ∧
    ∀ (fs s f : ℚ) (st : PayloadState) (r : Record),
      r.key = STR2FOURCC "GPSU" ∨ r.key = STR2FOURCC "GPSF" ∨ r.key = STR2FOURCC "GPSP" →
      rowsOf (processRecord fs s f st r).2 = [] := by
  obtain ⟨v1, v2, v3, v4⟩ := fourcc_values
  rw [rows_only_gps5 file_start file_finish p pre post g hsplit hpre hpost hg hk]
  refine ⟨by simp, Nat.pos_of_ne_zero hg.1, ?_, ?_, ?_, ?_⟩
  · simp [List.map_map, Function.comp, gps5Row]
  · intro row hrow
    simp only [List.mem_map, List.mem_range] at hrow
    obtain ⟨i, _, rfl⟩ := hrow
    simp [gps5Row, readData_length]
  · simp [List.map_map, Function.comp, gps5Row]
  · intro fs s f st r hr
    rw [rowsOf_processRecord, if_neg]
    intro hh
    rcases hr with hr | hr | hr
    · rw [hr, v1, v2] at hh; exact absurd hh.2 (by decide)
    · rw [hr, v3, v2] at hh; exact absurd hh.2 (by decide)
    · rw [hr, v4, v2] at hh; exact absurd hh.2 (by decide)

/-- C16 at a payload with a GPSF, a GPSP and a GPSU record in front of one GPS5
record of two samples: two rows. -/
theorem C16_row_count_witness :
    fullPayload.first :: fullPayload.rest =
      [{ okRecord (STR2FOURCC "GPSF") 1 with u32 := 3 },
       { okRecord (STR2FOURCC "GPSP") 1 with u16 := 100 },
       { okRecord (STR2FOURCC "GPSU") 1 with chars := charBuffer exampleField }] ++
      okRecord (STR2FOURCC "GPS5") 2 :: [] ∧
    Reaches (okRecord (STR2FOURCC "GPS5") 2) ∧
    (rowsOf (processPayload 0 0 fullPayload).2).length = 2 ∧
    (∀ row ∈ rowsOf (processPayload 0 0 fullPayload).2, row.data.length = 5) :=
  have h := C16_row_count 0 0 fullPayload
    [{ okRecord (STR2FOURCC "GPSF") 1 with u32 := 3 },
     { okRecord (STR2FOURCC "GPSP") 1 with u16 := 100 },
     { okRecord (STR2FOURCC "GPSU") 1 with chars := charBuffer exampleField }] []
    (okRecord (STR2FOURCC "GPS5") 2) rfl (by decide) (by simp) (by decide) rfl
  ⟨rfl, by decide, h.1, h.2.2.2.1⟩

/-! ## C17: the rows of a GPS5 record and the anchor they are dated from -/

theorem processRecord_finish (file_start start finish : ℚ) (st : PayloadState) (r : Record) :
    (processRecord file_start start finish st r).1.file_finish =
      if Reaches r then finish else st.file_finish := by
  by_cases h : Reaches r
  · rw [processRecord_reaches _ _ _ _ _ h, if_pos h]
  · rw [processRecord_skips _ _ _ _ _ h, if_neg h]

theorem recordLoop_finish (file_start start finish : ℚ) (st : PayloadState)
    (rs : List Record) :
    (recordLoop file_start start finish st rs).1.file_finish =
      if rs.any (fun r => decide (Reaches r)) then finish else st.file_finish := by
  induction rs generalizing st with
  | nil => rfl
  | cons r rs ih =>
    rw [recordLoop_cons]
    simp only
    rw [ih, processRecord_finish]
    by_cases h : Reaches r
    · simp [h]
    · simp [h]

theorem processPayload_finish (file_start ff : ℚ) (p : Payload) :
    (processPayload file_start ff p).1.file_finish =
      if payloadDecodes p then p.finish else ff := by
  unfold processPayload payloadDecodes
  rw [recordLoop_finish]

theorem lastDecodedFinish_cons (init : ℚ) (p : Payload) (ps : List Payload) :
    lastDecodedFinish init (p :: ps) =
      lastDecodedFinish (if payloadDecodes p then p.finish else init) ps := by
  unfold lastDecodedFinish
  rw [List.reverse_cons, List.find?_append]
  cases h : ps.reverse.find? payloadDecodes with
  | some q => simp
  | none =>
    by_cases hp : payloadDecodes p = true
    · simp [List.find?_cons, hp]
    · simp [List.find?_cons, hp]

theorem payloadLoop_all_processed (file_start : ℚ) (ps : List Payload) (ff : ℚ)
    (hall : ∀ p ∈ ps, p.payload_ok = true ∧ p.time_ret = GPMF_OK ∧ p.init_ret = GPMF_OK) :
    (payloadLoop file_start ps GPMF_OK ff).ret = GPMF_OK ∧
    (payloadLoop file_start ps GPMF_OK ff).file_finish = lastDecodedFinish ff ps := by
  induction ps generalizing ff with
  | nil => exact ⟨rfl, rfl⟩
  | cons p ps ih =>
    obtain ⟨h1, h2, h3⟩ := hall p (List.mem_cons_self p ps)
    rw [payloadLoop_cons_ok _ _ _ _ _ h1 h2 h3, lastDecodedFinish_cons]
    simp only
    rw [processPayload_finish]
    exact ih _ (fun q hq => hall q (List.mem_cons_of_mem p hq))

/-- C12 as amended: for a file that opens, has positive duration and whose
payloads are all processed without error, the value added to the running file
offset after the file is the finish time of the last payload in which some
record was decoded (key GPSU, GPSF, GPSP or GPS5, non-zero counts, a buffer,
decode result GPMF_OK), and 0 when the file has no such payload; the next file
is run at the offset increased by that value. -/
theorem C12_last_decoded_finish (f : File) (fs : List File) (first : Bool) (off : ℚ)
    (hopen : f.mp4handle ≠ 0) (hdur : 0 < f.metadataduration)
    (hall : ∀ p ∈ f.payloads,
      p.payload_ok = true ∧ p.time_ret = GPMF_OK ∧ p.init_ret = GPMF_OK) :
    fileFinish f = lastDecodedFinish 0 f.payloads ∧
    (fileLoop (f :: fs) first GPMF_OK off).exit =
      (fileLoop fs false GPMF_OK (off + lastDecodedFinish 0 f.payloads)).exit ∧
    (fileLoop (f :: fs) first GPMF_OK off).events =
      (if first then [Event.header (printColumns 0 column_names)] else []) ++
        fileEvents off f ++
        (fileLoop fs false GPMF_OK (off + lastDecodedFinish 0 f.payloads)).events := by
  obtain ⟨hret, hfin⟩ := payloadLoop_all_processed 0 f.payloads 0 hall
  have hff : fileFinish f = lastDecodedFinish 0 f.payloads := hfin
  have hok : FileOk f := ⟨hopen, hdur, hret⟩
  rw [fileLoop_cons_ok f fs first off hok, hff]
  exact ⟨rfl, rfl, rfl⟩

theorem fileOk_gapFile : FileOk gapFile := by
  refine ⟨by decide, by norm_num [gapFile], ?_⟩
  simp [fileRet, gapFile, gps5Payload, acclPayload, payloadLoop]

theorem gapFile_all_processed : ∀ p ∈ gapFile.payloads,
    p.payload_ok = true ∧ p.time_ret = GPMF_OK ∧ p.init_ret = GPMF_OK := by
  intro p hp
  simp only [gapFile, List.mem_cons, List.mem_singleton, List.not_mem_nil, or_false] at hp
  rcases hp with rfl | rfl <;> exact ⟨rfl, rfl, rfl⟩

theorem gapFile_finish : fileFinish gapFile = 1 := by
  have h := (payloadLoop_all_processed 0 gapFile.payloads 0 gapFile_all_processed).2
  have hfind : gapFile.payloads.reverse.find? payloadDecodes = some (gps5Payload 0 1 1) := by
    rfl
  unfold fileFinish
  rw [h]
  simp only [lastDecodedFinish, hfind, gps5Payload]

/-- C12 as amended, at the file `gapFile`: the value added is 1, the finish time
of its first payload, the last one in which a record was decoded. -/
theorem C12_last_decoded_finish_witness :
    gapFile.mp4handle ≠ 0 ∧ 0 < gapFile.metadataduration ∧
    (∀ p ∈ gapFile.payloads,
      p.payload_ok = true ∧ p.time_ret = GPMF_OK ∧ p.init_ret = GPMF_OK) ∧
    fileFinish gapFile = lastDecodedFinish 0 gapFile.payloads ∧
    lastDecodedFinish 0 gapFile.payloads = 1 := by
  have h := (C12_last_decoded_finish gapFile [] true 0 (by decide) (by norm_num [gapFile])
    gapFile_all_processed).1
  exact ⟨by decide, by norm_num [gapFile], gapFile_all_processed, h,
    by rw [← h]; exact gapFile_finish⟩

/-- C12 as stated fails: the last payload of `gapFile` finishes at 2 s and holds
only an ACCL record; the value added to the running offset is 1, not 2, and the
rows of the next file start at 1000 ms. -/
theorem C12_counterexample :
    gapFile.payloads.getLast?.map Payload.finish = some 2 ∧
    fileFinish gapFile = 1 ∧
    (main [gapFile, tenSecondFile]).exit = 0 ∧
    (rowsOf (main [gapFile, tenSecondFile]).events).map Row.cts = [0, 1000, 6000] := by
  have hok : ∀ f ∈ [gapFile, tenSecondFile], FileOk f := by
    intro f hf
    simp only [List.mem_cons, List.mem_singleton, List.not_mem_nil, or_false] at hf
    rcases hf with rfl | rfl
    · exact fileOk_gapFile
    · exact fileOk_tenSecondFile
  obtain ⟨h1, h2⟩ := main_ok [gapFile, tenSecondFile] (by simp) hok
  refine ⟨by simp [gapFile, acclPayload], gapFile_finish, h1, ?_⟩
  rw [h2]
  have hg : (rowsOf (fileEvents 0 gapFile)).map Row.cts = [0] := by
    unfold fileEvents gapFile
    simp only
    rw [rowsOf_payloadLoop_cons_ok _ (gps5Payload 0 1 1) _ _ _ rfl rfl rfl,
      rowsOf_payloadLoop_cons_ok _ acclPayload _ _ _ rfl rfl rfl,
      rows_single_gps5 _ _ (gps5Payload 0 1 1) [] [] (okRecord (STR2FOURCC "GPS5") 1) rfl
        (by simp) (by simp) (by decide) rfl]
    have ha : rowsOf (processPayload 0
        (processPayload 0 0 (gps5Payload 0 1 1)).1.file_finish acclPayload).2 = [] :=
      rowsOf_recordLoop_nogps5 _ _ _ _ _ (by decide)
    rw [ha]
    simp only [payloadLoop, rowsOf, List.append_nil, okRecord, gps5Payload, gps5Row,
      List.range_succ, List.range_zero, List.nil_append, List.map_cons, List.map_nil]
    norm_num
  simp only [List.enum_cons, List.enumFrom_cons, List.enumFrom_nil, List.flatMap_cons,
    List.flatMap_nil, List.append_nil, List.map_append, tenSecondFile_cts, offsetBefore,
    List.take, List.map_cons, List.map_nil, List.sum_cons, List.sum_nil, gapFile_finish, hg]
  norm_num

/-! ## C15: the header line -/

theorem printColumns_header : printColumns 0 column_names = headerLine := by decide

theorem headersOf_append (a b : List Event) :
    headersOf (a ++ b) = headersOf a ++ headersOf b := by
  induction a with
  | nil => rfl
  | cons e es ih => cases e <;> simp [headersOf, ih]

theorem headersOf_map_row {α : Type} (f : α → Row) (l : List α) :
    headersOf (l.map (fun i => Event.row (f i))) = [] := by
  induction l with
  | nil => rfl
  | cons r rs ih => simp [headersOf, ih]

theorem headersOf_processRecord (file_start start finish : ℚ) (st : PayloadState)
    (r : Record) : headersOf (processRecord file_start start finish st r).2 = [] := by
  by_cases h : Reaches r
  · rcases reaches_key r h with hk | hk | hk | hk
    · rw [processRecord_gpsu _ _ _ _ _ h hk]; rfl
    · rw [processRecord_gps5 _ _ _ _ _ h hk]
      simp only [headersOf]
      rw [headersOf_map_row]
    · rw [processRecord_gpsf _ _ _ _ _ h hk]; rfl
    · rw [processRecord_gpsp _ _ _ _ _ h hk]; rfl
  · rw [processRecord_skips _ _ _ _ _ h]; rfl

theorem headersOf_recordLoop (file_start start finish : ℚ) (st : PayloadState)
    (rs : List Record) : headersOf (recordLoop file_start start finish st rs).2 = [] := by
  induction rs generalizing st with
  | nil => rfl
  | cons r rs ih => rw [recordLoop_cons, headersOf_append, headersOf_processRecord, ih]; rfl

theorem headersOf_payloadLoop (file_start : ℚ) (ps : List Payload) (ret : Nat) (ff : ℚ) :
    headersOf (payloadLoop file_start ps ret ff).events = [] := by
  induction ps generalizing ret ff with
  | nil => rfl
  | cons p ps ih =>
    by_cases hp : p.payload_ok = true ∧ p.time_ret = GPMF_OK ∧ p.init_ret = GPMF_OK
    · rw [payloadLoop_cons_ok _ _ _ _ _ hp.1 hp.2.1 hp.2.2]
      simp only [headersOf_append, ih]
      unfold processPayload
      rw [headersOf_recordLoop]
      rfl
    · rw [(payloadLoop_cons_stop file_start p ps ret ff hp).1]; rfl

theorem headersOf_fileLoop (files : List File) (ret : Nat) (off : ℚ) :
    headersOf (fileLoop files false ret off).events = [] := by
  induction files generalizing ret off with
  | nil => rfl
  | cons f fs ih =>
    simp only [fileLoop]
    split
    · rfl
    · split
      · rfl
      · split
        · simp [headersOf_append, headersOf_payloadLoop, headersOf]
        · simp [headersOf_append, headersOf_payloadLoop, headersOf, ih]

/-- C15: in a run over files f, fs whose first file opens and has positive
duration, the output begins with the header line, no later event is a header
line (so it precedes every row and occurs exactly once, whatever the number of
files); if the first file does not open or has non-positive duration, nothing
is written: no header and no row. -/
theorem C15_header_once (f : File) (fs : List File) :
    (f.mp4handle ≠ 0 → 0 < f.metadataduration →
      ∃ rest, (main (f :: fs)).events = Event.header headerLine :: rest ∧
        headersOf rest = [] ∧ headersOf (main (f :: fs)).events = [headerLine]) ∧
    (f.mp4handle = 0 ∨ f.metadataduration ≤ 0 → (main (f :: fs)).events = []) := by
  have hlen : ¬ (f :: fs).length + 1 < 2 := by simp
  refine ⟨?_, ?_⟩
  · intro hopen hdur
    have hdur' : ¬ f.metadataduration ≤ 0 := not_le.mpr hdur
    simp only [main, if_neg hlen, fileLoop, hopen, hdur', if_false, if_true, printColumns_header]
    split
    · refine ⟨_, rfl, ?_, ?_⟩
      · simp [headersOf_payloadLoop]
      · simp [headersOf, headersOf_payloadLoop]
    · refine ⟨_, rfl, ?_, ?_⟩
      · simp [headersOf_append, headersOf_payloadLoop, headersOf_fileLoop]
      · simp [headersOf, headersOf_append, headersOf_payloadLoop, headersOf_fileLoop]
  · intro h
    simp only [main, if_neg hlen, fileLoop]
    rcases h with h | h
    · simp [h]
    · by_cases h0 : f.mp4handle = 0
      · simp [h0]
      · simp [h0, h]

/-- C15 at a run over two files: the events are the header line followed by the
four rows. -/
theorem C15_header_once_witness :
    tenSecondFile.mp4handle ≠ 0 ∧ 0 < tenSecondFile.metadataduration ∧
    headersOf (main [tenSecondFile, tenSecondFile]).events = [headerLine] ∧
    (main [tenSecondFile, tenSecondFile]).events.head? = some (Event.header headerLine) := by
  obtain ⟨rest, h1, _, h3⟩ := (C15_header_once tenSecondFile [tenSecondFile]).1 (by decide)
    (by norm_num [tenSecondFile])
  refine ⟨by decide, by norm_num [tenSecondFile], h3, ?_⟩
  rw [h1]
  rfl

/-! ## C11: the first file error ends the run -/

theorem payloadLoop_ret_ok_iff (file_start : ℚ) (ps : List Payload) (ff : ℚ) :
    (payloadLoop file_start ps GPMF_OK ff).ret = GPMF_OK ↔
      ¬ ∃ p ∈ reachedPayloads ps, p.time_ret ≠ GPMF_OK ∨ p.init_ret ≠ GPMF_OK := by
  induction ps generalizing ff with
  | nil => simp [payloadLoop, reachedPayloads]
  | cons p ps ih =>
    by_cases hp : p.payload_ok = true ∧ p.time_ret = GPMF_OK ∧ p.init_ret = GPMF_OK
    · rw [payloadLoop_cons_ok _ _ _ _ _ hp.1 hp.2.1 hp.2.2]
      simp only
      rw [ih]
      simp only [reachedPayloads, List.takeWhile_cons, hp.1, if_true, List.mem_cons,
        exists_eq_or_imp, hp.2.1, hp.2.2, ne_eq, not_true_eq_false, or_self, false_or]
    · rw [(payloadLoop_cons_stop file_start p ps GPMF_OK ff hp).2.2]
      by_cases h1 : p.payload_ok = true
      · have hfail : p.time_ret ≠ GPMF_OK ∨ p.init_ret ≠ GPMF_OK := by
          by_contra hc
          simp only [not_or, ne_eq, not_not] at hc
          exact hp ⟨h1, hc.1, hc.2⟩
        have hmem : ∃ q ∈ reachedPayloads (p :: ps),
            q.time_ret ≠ GPMF_OK ∨ q.init_ret ≠ GPMF_OK :=
          ⟨p, by simp [reachedPayloads, List.takeWhile_cons, h1], hfail⟩
        simp only [h1, Bool.true_eq_false, if_false, hmem, not_true_eq_false, iff_false]
        by_cases h2 : p.time_ret = GPMF_OK
        · have h3 : p.init_ret ≠ GPMF_OK := fun h3 => hp ⟨h1, h2, h3⟩
          simp [h2, h3]
        · simp [h2]
      · have h1' : p.payload_ok = false := by simpa using h1
        simp [h1', reachedPayloads, List.takeWhile_cons]

theorem fileOk_iff_not_error (f : File) : FileOk f ↔ ¬ FileError f := by
  unfold FileOk FileError fileRet
  rw [payloadLoop_ret_ok_iff]
  constructor
  · rintro ⟨h1, h2, h3⟩ h
    rcases h with h | h | h
    · exact h1 h
    · exact absurd h (not_le.mpr h2)
    · exact h3 h
  · intro h
    exact ⟨fun h1 => h (Or.inl h1), not_le.mp (fun h2 => h (Or.inr (Or.inl h2))),
      fun h3 => h (Or.inr (Or.inr h3))⟩

theorem payloadLoop_events_processed (file_start : ℚ) (ps : List Payload) (ret ret' : Nat)
    (ff : ℚ) :
    (payloadLoop file_start ps ret ff).events =
      (payloadLoop file_start (processedPayloads ps) ret' ff).events := by
  induction ps generalizing ret ret' ff with
  | nil => rfl
  | cons p ps ih =>
    by_cases hp : p.payload_ok = true ∧ p.time_ret = GPMF_OK ∧ p.init_ret = GPMF_OK
    · have hproc : processedPayloads (p :: ps) = p :: processedPayloads ps := by
        simp [processedPayloads, List.takeWhile_cons, hp.1, hp.2.1, hp.2.2]
      rw [hproc, payloadLoop_cons_ok _ _ _ _ _ hp.1 hp.2.1 hp.2.2,
        payloadLoop_cons_ok _ _ _ _ _ hp.1 hp.2.1 hp.2.2]
      simp only
      rw [ih _ GPMF_OK]
    · have hproc : processedPayloads (p :: ps) = [] := by
        simp only [processedPayloads, List.takeWhile_cons]
        rw [if_neg]
        intro hh
        simp only [Bool.and_eq_true, beq_iff_eq] at hh
        exact hp hh
      rw [hproc, (payloadLoop_cons_stop file_start p ps ret ff hp).1]
      rfl

theorem fileLoop_append_ok (pre rest : List File) (first : Bool) (off : ℚ)
    (hpre : ∀ x ∈ pre, FileOk x) :
    (fileLoop (pre ++ rest) first GPMF_OK off).exit =
      (fileLoop rest (first && pre.isEmpty) GPMF_OK (off + (pre.map fileFinish).sum)).exit ∧
    rowsOf (fileLoop (pre ++ rest) first GPMF_OK off).events =
      rowsOf (fileLoop pre first GPMF_OK off).events ++
        rowsOf (fileLoop rest (first && pre.isEmpty) GPMF_OK
          (off + (pre.map fileFinish).sum)).events := by
  induction pre generalizing first off with
  | nil => simp [fileLoop, rowsOf]
  | cons f fs ih =>
    have hf := hpre f (List.mem_cons_self f fs)
    obtain ⟨ih1, ih2⟩ := ih false (off + fileFinish f)
      (fun x hx => hpre x (List.mem_cons_of_mem f hx))
    rw [List.cons_append, fileLoop_cons_ok f (fs ++ rest) first off hf,
      fileLoop_cons_ok f fs first off hf]
    simp only [List.isEmpty_cons, Bool.and_false, Bool.false_and, List.map_cons,
      List.sum_cons, ← add_assoc] at ih1 ih2 ⊢
    refine ⟨ih1, ?_⟩
    simp only [rowsOf_append, ih2, List.append_assoc]

theorem fileLoop_error (f : File) (post : List File) (first : Bool) (off : ℚ)
    (hf : FileError f) :
    (fileLoop (f :: post) first GPMF_OK off).exit ≠ 0 ∧
    rowsOf (fileLoop (f :: post) first GPMF_OK off).events =
      if f.mp4handle = 0 ∨ f.metadataduration ≤ 0 then []
      else rowsOf (payloadLoop off (processedPayloads f.payloads) GPMF_OK 0).events := by
  by_cases h1 : f.mp4handle = 0
  · simp [fileLoop, h1, rowsOf]
  by_cases h2 : f.metadataduration ≤ 0
  · simp [fileLoop, h1, h2, rowsOf]
  have hnok : ¬ FileOk f := fun h => (fileOk_iff_not_error f).mp h hf
  have hret : (payloadLoop off f.payloads GPMF_OK 0).ret ≠ GPMF_OK := by
    intro h
    apply hnok
    refine ⟨h1, not_le.mp h2, ?_⟩
    unfold fileRet
    rw [← (payloadLoop_indep off f.payloads GPMF_OK 0).1]
    exact h
  have hor : ¬ (f.mp4handle = 0 ∨ f.metadataduration ≤ 0) := fun h => h.elim h1 h2
  simp only [fileLoop, h1, h2, if_false, hret, ne_eq, not_false_eq_true, if_true, hor]
  refine ⟨?_, ?_⟩
  · intro h
    apply hret
    have : (payloadLoop off f.payloads GPMF_OK 0).ret = 0 := by exact_mod_cast h
    exact this
  · rw [rowsOf_append, rowsOf_header, List.nil_append,
      payloadLoop_events_processed off f.payloads GPMF_OK GPMF_OK 0]
    simp

/-- C11: in a run over the files pre, f, post in which no file of `pre` hits a
file error and `f` does, the exit status is not 0 and the rows are those of
the files of `pre` followed by the rows of the payloads of `f` processed before
the error (none when `f` does not open or has non-positive duration): no row of
a later payload of `f` and no row of a file of `post`; a run over at least one
file in which no file hits a file error has exit status 0. -/
theorem C11_stop_at_first_error (pre post : List File) (f : File) (files : List File)
    (hpre : ∀ x ∈ pre, ¬ FileError x) (hf : FileError f)
    (hne : files ≠ []) (hnone : ∀ x ∈ files, ¬ FileError x) :
    (main (pre ++ f :: post)).exit ≠ 0 ∧
    rowsOf (main (pre ++ f :: post)).events =
      pre.enum.flatMap (fun kf => rowsOf (fileEvents (offsetBefore pre kf.1) kf.2)) ++
        (if f.mp4handle = 0 ∨ f.metadataduration ≤ 0 then []
         else rowsOf (payloadLoop (pre.map fileFinish).sum (processedPayloads f.payloads)
           GPMF_OK 0).events) ∧
    (main files).exit = 0 := by
  have hpre' : ∀ x ∈ pre, FileOk x := fun x hx => (fileOk_iff_not_error x).mpr (hpre x hx)
  have hlen : ¬ (pre ++ f :: post).length + 1 < 2 := by
    simp only [List.length_append, List.length_cons]
    omega
  obtain ⟨e1, e2⟩ := fileLoop_append_ok pre (f :: post) true 0 hpre'
  obtain ⟨e3, e4⟩ := fileLoop_error f post (true && pre.isEmpty)
    (0 + (pre.map fileFinish).sum) hf
  obtain ⟨_, e5⟩ := fileLoop_ok pre true 0 hpre'
  simp only [zero_add] at e1 e2 e3 e4 e5
  refine ⟨?_, ?_, ?_⟩
  · simp only [main, if_neg hlen]
    rw [e1]
    exact e3
  · simp only [main, if_neg hlen]
    rw [e2, e4, e5]
  · exact (main_ok files hne (fun x hx => (fileOk_iff_not_error x).mpr (hnone x hx))).1

theorem badTimeFile_error : FileError badTimeFile := by
  refine Or.inr (Or.inr ⟨{ gps5Payload 1 2 1 with time_ret := 1 }, ?_, Or.inl (by decide)⟩)
  simp [reachedPayloads, badTimeFile, gps5Payload, List.takeWhile_cons]

/-- C11 at the run over `tenSecondFile`, `badTimeFile`, `tenSecondFile`: the
exit status is 1 and the rows are the two of the first file and the one of the
first payload of the second file. -/
theorem C11_stop_at_first_error_witness :
    (∀ x ∈ [tenSecondFile], ¬ FileError x) ∧ FileError badTimeFile ∧
    (main ([tenSecondFile] ++ badTimeFile :: [tenSecondFile])).exit ≠ 0 ∧
    (rowsOf (main ([tenSecondFile] ++ badTimeFile :: [tenSecondFile])).events).map Row.cts
      = [0, 5000, 10000] ∧
    (main [tenSecondFile]).exit = 0 := by
  have hpre : ∀ x ∈ [tenSecondFile], ¬ FileError x := by
    intro x hx
    rw [List.mem_singleton] at hx
    rw [hx]
    exact (fileOk_iff_not_error tenSecondFile).mp fileOk_tenSecondFile
  obtain ⟨h1, h2, h3⟩ := C11_stop_at_first_error [tenSecondFile] [tenSecondFile] badTimeFile
    [tenSecondFile] hpre badTimeFile_error (by simp) hpre
  refine ⟨hpre, badTimeFile_error, h1, ?_, h3⟩
  rw [h2]
  have hproc : processedPayloads badTimeFile.payloads = [gps5Payload 0 1 1] := by
    simp [processedPayloads, badTimeFile, gps5Payload, List.takeWhile_cons, GPMF_OK]
  have hopen : ¬ (badTimeFile.mp4handle = 0 ∨ badTimeFile.metadataduration ≤ 0) := by
    norm_num [badTimeFile]
  rw [if_neg hopen, hproc, rowsOf_payloadLoop_cons_ok _ (gps5Payload 0 1 1) _ _ _ rfl rfl rfl,
    rows_single_gps5 _ _ (gps5Payload 0 1 1) [] [] (okRecord (STR2FOURCC "GPS5") 1) rfl
      (by simp) (by simp) (by decide) rfl]
  simp only [List.enum_cons, List.enumFrom_nil, List.flatMap_cons, List.flatMap_nil,
    List.append_nil, List.map_append, tenSecondFile_cts, offsetBefore, List.take,
    List.map_cons, List.map_nil, List.sum_cons, List.sum_nil, tenSecondFile_finish]
  have htail : rowsOf (payloadLoop (10 + 0) []
      GPMF_OK (processPayload (10 + 0) 0 (gps5Payload 0 1 1)).1.file_finish).events = [] := rfl
  rw [htail]
  simp only [okRecord, gps5Payload, gps5Row, List.range_succ, List.range_zero,
    List.nil_append, List.map_cons, List.map_nil, List.append_nil, List.cons_append]
  norm_num

end GpsTelemetry
